import Mathlib

/-!
Verification of the `outputduplication` capture pipeline
(`outputduplication/output_duplication.go`).

The Go code is shallowly embedded: the mutable `OutputDuplicator` becomes an
explicit state record, the external DXGI/D3D11 provider becomes a per-call
record of how each external call would answer, and `Snapshot`, `ReleaseFrame`,
`Release` and `updatePointer` become state-passing functions that additionally
report the externally visible calls they issue (provider `ReleaseFrame` calls,
GPU copy operations, ...).  The pure pixel algorithms (monochrome pointer
decoding, row-pitch extraction, background-brightness analysis, pointer
compositing) are embedded as functions on byte lists.
-/

namespace GoD3D

/-- Integer pair, `dxgi.POINT`. -/
structure Pt where
  x : Int
  y : Int
deriving DecidableEq, Repr

/-- Integer rectangle, `dxgi.RECT`. -/
structure RectI where
  left : Int
  top : Int
  right : Int
  bottom : Int
deriving DecidableEq, Repr

/-- Observable allocation state of a reusable Go slice: logical length,
capacity of the underlying array, and an allocation generation that changes
exactly when `make` allocates a fresh array (so `gen` equality means "same
underlying buffer"). -/
structure GrowBuf where
  len : Nat
  cap : Nat
  gen : Nat
deriving DecidableEq, Repr

/-- Allocation `make([]T, n)`: fresh array of length and capacity `n`. -/
def GrowBuf.makeNew (b : GrowBuf) (n : Nat) : GrowBuf := ⟨n, n, b.gen + 1⟩

/-- The reallocation pattern `if len(buf) < n { buf = make([]T, n) }` used for
the rect buffers (lines 177-179, 193-195) and the raw pointer-shape buffer
(lines 288-290). -/
def GrowBuf.growIfNeeded (b : GrowBuf) (n : Nat) : GrowBuf :=
  if b.len < n then b.makeNew n else b

/-- Reslicing `buf = buf[:n]`: same underlying array, shorter view
(lines 187 and 203). -/
def GrowBuf.reslice (b : GrowBuf) (n : Nat) : GrowBuf := ⟨n, b.cap, b.gen⟩

/-- The fields of `dxgi.DXGI_OUTDUPL_FRAME_INFO` that the pipeline reads. -/
structure FrameInfo where
  accumulatedFrames : Nat
  totalMetadataBufferSize : Nat
  lastMouseUpdateTime : Int
  pointerShapeBufferSize : Nat
  pointerVisible : Bool
  pointerPos : Pt
deriving DecidableEq, Repr

/-- The fields of `dxgi.DXGI_OUTDUPL_POINTER_SHAPE_INFO` that `updatePointer`
reads (`Type`, `Width`, `Height`, `Pitch`). -/
structure ShapeInfo where
  shapeType : Nat
  width : Nat
  height : Nat
  pitch : Nat
deriving DecidableEq, Repr

/-- DXGI pointer-shape type constant `DXGI_OUTDUPL_POINTER_SHAPE_TYPE_MONOCHROME`. -/
def SHAPE_MONOCHROME : Nat := 1

/-- DXGI pointer-shape type constant `DXGI_OUTDUPL_POINTER_SHAPE_TYPE_COLOR`. -/
def SHAPE_COLOR : Nat := 2

/-- DXGI pointer-shape type constant `DXGI_OUTDUPL_POINTER_SHAPE_TYPE_MASKED_COLOR`. -/
def SHAPE_MASKED_COLOR : Nat := 4

/-- Outcome of the provider's `AcquireNextFrame` call: success, the
`DXGI_ERROR_WAIT_TIMEOUT` status, or any other failing HRESULT. -/
inductive AcquireOutcome where
  | timeout
  | failure
  | ok
deriving DecidableEq, Repr

/-- Whether an `AcquireNextFrame` outcome actually acquired a frame. -/
def AcquireOutcome.isOk : AcquireOutcome → Bool
  | .ok => true
  | _ => false

/-- One `Snapshot` call's deterministic view of the external provider and the
D3D runtime: each field records how the corresponding external call would
answer during this call.  `moveRectCount` and `dirtyRectList` are the frame's
actual move-rect count and dirty-rect contents; the rect-retrieval calls answer
`DXGI_ERROR_MORE_DATA` while the supplied buffer is smaller than that count and
otherwise succeed reporting it (the `...Ok` flags switch any other failing
HRESULT, taken to happen on the first retrieval call). -/
structure ProviderCall where
  getDescOk : Bool
  desktopImageInSystemMemory : Bool
  modeWidth : Int
  modeHeight : Int
  mapDesktopOk : Bool
  acquire : AcquireOutcome
  frameInfo : FrameInfo
  shapeFetchOk : Bool
  shapeInfo : ShapeInfo
  queryInterfaceOk : Bool
  stageOk : Bool
  stageWidth : Int
  stageHeight : Int
  moveRectCount : Nat
  moveRectsOk : Bool
  dirtyRectList : List RectI
  dirtyRectsOk : Bool
  mapOk : Bool
deriving DecidableEq, Repr

/-- The mutable state of an `OutputDuplicator` (lines 26-48), with the COM
pointers abstracted to presence flags, plus one ghost field: `heldFrame`
records whether the provider actually holds an acquired frame, which the Go
code tracks only through the (not always accurate) `acquiredFrame` flag. -/
structure DupState where
  updatePointerInfo : Bool
  acquiredFrame : Bool
  heldFrame : Bool
  needsSwizzle : Bool
  stagedTex : Bool
  surface : Bool
  outputDuplication : Bool
  dxgiOutput : Bool
  size : Pt
  mappedRectSet : Bool
  ptrPos : Pt
  ptrVisible : Bool
  ptrSize : Pt
  shapeInBuffer : GrowBuf
  shapeOutGen : Nat
  movedRects : GrowBuf
  dirtyRects : GrowBuf
deriving DecidableEq, Repr

/-- The distinct error results a `Snapshot` call can return.  `noImageYet` is
the distinguished `ErrNoImageYet`; the others correspond to the distinct
`fmt.Errorf` sites. -/
inductive SnapErr where
  | getDescFailed
  | noImageYet
  | acquireFailed
  | pointerShapeFetchFailed
  | unsupportedPointerType (t : Nat)
  | queryInterfaceFailed
  | initializeStageFailed
  | moveRectsFailed
  | dirtyRectsFailed
  | mapFailed
deriving DecidableEq, Repr

/-- Which unmap callback a successful `Snapshot` returns: the fast path returns
`outputDuplication.UnMapDesktopSurface`, the normal path `surface.Unmap`. -/
inductive UnmapKind where
  | desktopSurface
  | stagedSurface
deriving DecidableEq, Repr

/-- A GPU copy issued while staging a frame: `subRegion dstX dstY box` is
`CopySubresourceRegion2D(stagedTex, 0, dstX, dstY, 0, desktop2d, 0, box)`
(the code passes `box.Left, box.Top`, i.e. the rect's own coordinates), and
`fullCopy` is `CopyResource2D(stagedTex, desktop2d)`. -/
inductive CopyOp where
  | subRegion (dstX dstY : Int) (box : RectI)
  | fullCopy
deriving DecidableEq, Repr

/-- Method `ReleaseFrame` (lines 108-113): issues a provider `ReleaseFrame`
call and clears the flag only when `acquiredFrame` is set.  The second
component counts the provider `ReleaseFrame` calls issued (the ghost
`heldFrame` is cleared by such a call whether or not a frame was held). -/
def releaseFrameStep (s : DupState) : DupState × Nat :=
  if s.acquiredFrame then
    ({ s with acquiredFrame := false, heldFrame := false }, 1)
  else (s, 0)

/-- Provider release calls issued by a full `Release` (lines 84-102). -/
structure ReleaseCalls where
  frameReleases : Nat
  stagedTexReleases : Nat
  surfaceReleases : Nat
  outputDuplicationReleases : Nat
  dxgiOutputReleases : Nat
deriving DecidableEq, Repr

/-- Method `Release` (lines 84-102): `ReleaseFrame`, then release and nil out
`stagedTex`, `surface`, `outputDuplication` and `dxgiOutput`, each guarded by a
nil check. -/
def releaseStep (s : DupState) : DupState × ReleaseCalls :=
  let s0 := (releaseFrameStep s).1
  let fr := (releaseFrameStep s).2
  let s1 := if s0.stagedTex then { s0 with stagedTex := false } else s0
  let st := if s0.stagedTex then 1 else 0
  let s2 := if s1.surface then { s1 with surface := false } else s1
  let su := if s1.surface then 1 else 0
  let s3 := if s2.outputDuplication then { s2 with outputDuplication := false } else s2
  let od := if s2.outputDuplication then 1 else 0
  let s4 := if s3.dxgiOutput then { s3 with dxgiOutput := false } else s3
  let dx := if s3.dxgiOutput then 1 else 0
  (s4, ⟨fr, st, su, od, dx⟩)

/-- Method `updatePointer` (lines 279-396), up to and including the
`switch pointerInfo.Type` dispatch; the per-type pixel decoding is embedded
separately below.  Returns the mutated state together with the error, if any
(the Go method mutates `dup` in place, so mutations made before a failing
return persist). -/
def updatePointer (pc : ProviderCall) (s : DupState) : DupState × Option SnapErr :=
  if pc.frameInfo.lastMouseUpdateTime = 0 then (s, none)
  else
    let s := { s with ptrVisible := pc.frameInfo.pointerVisible,
                      ptrPos := pc.frameInfo.pointerPos }
    if pc.frameInfo.pointerShapeBufferSize ≠ 0 then
      let s := { s with shapeInBuffer :=
        s.shapeInBuffer.growIfNeeded pc.frameInfo.pointerShapeBufferSize }
      if ¬ pc.shapeFetchOk then (s, some .pointerShapeFetchFailed)
      else
        -- shapeOutBuffer = image.NewRGBA(...) on line 303: recreated on every
        -- shape update, before the type dispatch.
        let s := { s with shapeOutGen := s.shapeOutGen + 1 }
        let si := pc.shapeInfo
        if si.shapeType = SHAPE_MONOCHROME then
          ({ s with ptrSize := ⟨(si.width : Int), ((si.height / 2 : Nat) : Int)⟩ }, none)
        else if si.shapeType = SHAPE_COLOR then
          ({ s with ptrSize := ⟨(si.width : Int), (si.height : Int)⟩ }, none)
        else if si.shapeType = SHAPE_MASKED_COLOR then
          ({ s with ptrSize := ⟨(si.width : Int), (si.height : Int)⟩ }, none)
        else
          ({ s with ptrSize := ⟨0, 0⟩ }, some (.unsupportedPointerType si.shapeType))
    else (s, none)

/-- The rect-retrieval loop of `Snapshot` (lines 176-189 and 191-205):
`required` starts as the probe value 1; a `DXGI_ERROR_MORE_DATA` answer leaves
the frame's actual count in `required` and the loop reallocates and retries, so
it runs at most twice; on success the slice is resliced to the retrieved
count.  `actual` is the frame's rect count. -/
def retrieveRects (b : GrowBuf) (actual : Nat) : GrowBuf :=
  let b1 := b.growIfNeeded 1
  let b2 := b1.growIfNeeded actual
  b2.reslice actual

/-- The `initializeStage` step as `Snapshot` invokes it (lines 165-170): only
when no staging texture exists yet; on success the staging texture and surface
exist and the stored size follows the source description.  On failure the
state is left unchanged (the partially created staging objects are not
modelled). -/
def snapshotStage (pc : ProviderCall) (s : DupState) : Except SnapErr DupState :=
  if ¬ s.stagedTex then
    if ¬ pc.stageOk then .error .initializeStageFailed
    else .ok { s with stagedTex := true, surface := true,
                      size := ⟨pc.stageWidth, pc.stageHeight⟩ }
  else .ok s

/-- The metadata / copy / map phase of `Snapshot` (lines 172-238): retrieve the
move and dirty rects when metadata is present, pick the copy strategy, then
map the staging surface. -/
def snapshotCopyPhase (pc : ProviderCall) (s : DupState) :
    Except SnapErr UnmapKind × DupState × List CopyOp :=
  if pc.frameInfo.totalMetadataBufferSize > 0 then
    if ¬ pc.moveRectsOk then
      (.error .moveRectsFailed,
       { s with movedRects := s.movedRects.growIfNeeded 1 }, [])
    else
      let s := { s with movedRects := retrieveRects s.movedRects pc.moveRectCount }
      if ¬ pc.dirtyRectsOk then
        (.error .dirtyRectsFailed,
         { s with dirtyRects := s.dirtyRects.growIfNeeded 1 }, [])
      else
        let s := { s with dirtyRects := retrieveRects s.dirtyRects pc.dirtyRectList.length }
        let copies :=
          if pc.moveRectCount = 0 then
            pc.dirtyRectList.map (fun r => CopyOp.subRegion r.left r.top r)
          else [CopyOp.fullCopy]
        if ¬ pc.mapOk then (.error .mapFailed, s, copies)
        else (.ok .stagedSurface, { s with mappedRectSet := true }, copies)
  else
    -- no frame metadata: copy whole image and require swizzling
    let s := { s with needsSwizzle := true }
    if ¬ pc.mapOk then (.error .mapFailed, s, [CopyOp.fullCopy])
    else (.ok .stagedSurface, { s with mappedRectSet := true }, [CopyOp.fullCopy])

/-- The part of `Snapshot` from the pointer update through the map of the
staging surface (lines 149-238), excluding the deferred `ReleaseFrame`.
Returns the result, the mutated state, and the GPU copies issued. -/
def snapshotBody (pc : ProviderCall) (s : DupState) :
    Except SnapErr UnmapKind × DupState × List CopyOp :=
  match (if s.updatePointerInfo then updatePointer pc s else (s, none)) with
  | (s, some e) => (.error e, s, [])
  | (s, none) =>
    if pc.frameInfo.accumulatedFrames = 0 then (.error .noImageYet, s, [])
    else if ¬ pc.queryInterfaceOk then (.error .queryInterfaceFailed, s, [])
    else
      match snapshotStage pc s with
      | .error e => (.error e, s, [])
      | .ok s => snapshotCopyPhase pc s

deriving instance DecidableEq for Except

/-- Everything a `Snapshot` call yields: its result, the state it leaves
behind, the provider `ReleaseFrame` and `AcquireNextFrame` calls it issued, the
ghost flag recording whether an acquire was issued while a frame was still
held, and the GPU copies performed. -/
structure SnapOutcome where
  result : Except SnapErr UnmapKind
  state : DupState
  releaseCalls : Nat
  acquireCalls : Nat
  doubleAcquire : Bool
  copies : List CopyOp
deriving DecidableEq, Repr

/-- The state after the `GetDesc` step of `Snapshot` (lines 124-126): when the
description reports the desktop image in system memory, the stored size is set
to the mode dimensions before `MapDesktopSurface` is even attempted. -/
def snapshotDescState (pc : ProviderCall) (s : DupState) : DupState :=
  if pc.desktopImageInSystemMemory then
    { s with size := ⟨pc.modeWidth, pc.modeHeight⟩ }
  else s

/-- The state right after `AcquireNextFrame` returns (lines 136-138): the
previously tracked frame is released, the ghost `heldFrame` records whether a
frame was actually acquired, and `acquiredFrame` is set to `true`
unconditionally — before the HRESULT is inspected. -/
def snapshotAcquireState (pc : ProviderCall) (s : DupState) : DupState :=
  { (releaseFrameStep (snapshotDescState pc s)).1 with
      heldFrame := (releaseFrameStep (snapshotDescState pc s)).1.heldFrame || pc.acquire.isOk,
      acquiredFrame := true }

/-- Method `Snapshot` (lines 116-239).  Note line 138: `dup.acquiredFrame` is
set to `true` immediately after `AcquireNextFrame` returns, before its HRESULT
is inspected, and the timeout / failure returns happen before the deferred
`ReleaseFrame` is registered (so those two exits release nothing). -/
def snapshot (pc : ProviderCall) (s : DupState) : SnapOutcome :=
  if ¬ pc.getDescOk then ⟨.error .getDescFailed, s, 0, 0, false, []⟩
  else if pc.desktopImageInSystemMemory ∧ pc.mapDesktopOk then
    ⟨.ok .desktopSurface, { snapshotDescState pc s with mappedRectSet := true },
     0, 0, false, []⟩
  else
    match pc.acquire with
    | .timeout =>
      ⟨.error .noImageYet, snapshotAcquireState pc s,
       (releaseFrameStep (snapshotDescState pc s)).2, 1,
       (releaseFrameStep (snapshotDescState pc s)).1.heldFrame, []⟩
    | .failure =>
      ⟨.error .acquireFailed, snapshotAcquireState pc s,
       (releaseFrameStep (snapshotDescState pc s)).2, 1,
       (releaseFrameStep (snapshotDescState pc s)).1.heldFrame, []⟩
    | .ok =>
      ⟨(snapshotBody pc (snapshotAcquireState pc s)).1,
       (releaseFrameStep (snapshotBody pc (snapshotAcquireState pc s)).2.1).1,
       (releaseFrameStep (snapshotDescState pc s)).2 +
         (releaseFrameStep (snapshotBody pc (snapshotAcquireState pc s)).2.1).2,
       1,
       (releaseFrameStep (snapshotDescState pc s)).1.heldFrame,
       (snapshotBody pc (snapshotAcquireState pc s)).2.2⟩

/-- Row stride in bytes of one packed 1-bit-per-pixel mask row,
`widthBytes := (width + 7) / 8` (line 319). -/
def monoWidthBytes (width : Nat) : Nat := (width + 7) / 8

/-- The AND-mask bit of the monochrome pointer shape at column `i`, row `j`
(lines 323-326): `byteIndex := j*widthBytes + i/8`, `bitMask := 0x80 >> (i%8)`,
`andBit := (andMap[byteIndex] & bitMask) != 0`, where `andMap` is the start of
the raw shape buffer.  Bytes are modelled as a `List Nat`; reads beyond the
buffer yield 0. -/
def monoAndBit (shapeIn : List Nat) (width i j : Nat) : Bool :=
  (shapeIn.getD (j * monoWidthBytes width + i / 8) 0).land (0x80 >>> (i % 8)) != 0

/-- The XOR-mask bit at column `i`, row `j` (lines 315-317, 327): `xorMap`
starts at `xor_offset := pitch * height` into the raw buffer (where `height` is
already the halved height) and is indexed exactly like the AND map. -/
def monoXorBit (shapeIn : List Nat) (pitch width height i j : Nat) : Bool :=
  monoAndBit (shapeIn.drop (pitch * height)) width i j

/-- One decoded monochrome pointer pixel as its four RGBA bytes, the
`switch` at lines 332-349.  The Go code stores a little-endian `uint32` at
`outIndex`: `0x00000000` (transparent), `0xFFFFFFFF` (opaque white),
`0x00000000` again for `andBit && !xorBit` (the commented-out opaque black),
and `0xFF000000`, whose bytes R,G,B,A are 0,0,0,255. -/
def monoPixel (shapeIn : List Nat) (pitch width height i j : Nat) : List Nat :=
  let andBit := monoAndBit shapeIn width i j
  let xorBit := monoXorBit shapeIn pitch width height i j
  if !andBit && !xorBit then [0, 0, 0, 0]
  else if !andBit && xorBit then [255, 255, 255, 255]
  else if andBit && !xorBit then [0, 0, 0, 0]
  else [0, 0, 0, 255]

/-- The monochrome decode loop (lines 321-351): row-major over `j < height`,
`i < width` (with `height` the halved reported height), writing the four pixel
bytes at `outIndex = (j*width + i)*4`.  Successive iterations write
consecutive byte ranges, so the filled buffer is this concatenation. -/
def monoDecode (shapeIn : List Nat) (pitch width height : Nat) : List Nat :=
  (List.range height).flatMap fun j =>
    (List.range width).flatMap fun i => monoPixel shapeIn pitch width height i j

/-- The row-extraction loop of `GetImage` (lines 259-266): row `i` of the
mapped buffer starts at source offset `i * pitch`, its first `width*4` bytes
are appended at destination offset `i * width*4`; the pitch padding is
skipped.  `data` is the mapped memory (`pitch * height` bytes). -/
def extractRows (data : List Nat) (width height pitch : Nat) : List Nat :=
  (List.range height).flatMap fun i => (data.drop (i * pitch)).take (width * 4)

/-- Modelled from the spec: package `outputduplication/swizzle` is not among
the sources provided; per the spec's pixel-transfer contract, `swizzle.BGRA`
swaps byte 0 and byte 2 of every 4-byte pixel across the whole buffer.  A
trailing fragment shorter than one pixel is left unchanged. -/
def swizzleBGRA : List Nat → List Nat
  | b :: g :: r :: a :: rest => r :: g :: b :: a :: swizzleBGRA rest
  | l => l

/-- The pixel-transfer step of `GetImage` (lines 252-270): extract the dense
rows, then swizzle the whole buffer exactly when `needsSwizzle` is set. -/
def getImagePixels (data : List Nat) (width height pitch : Nat)
    (needsSwizzle : Bool) : List Nat :=
  let pix := extractRows data width height pitch
  if needsSwizzle then swizzleBGRA pix else pix

/-- Position of the most significant bit of a positive `n` below `2^80`:
the unique `E` with `2^E ≤ n < 2^(E+1)` (0 for `n = 0`).  Every quantity in
the luma computation is below `2^70` at scale `2^60`. -/
def msb (n : Nat) : Nat :=
  (((List.range 81).map fun k => 80 - k).find? fun E => 2 ^ E ≤ n).getD 0

/-- Rounding to the nearest IEEE binary64 value (ties to even) of the exact
dyadic rational `n / 2^60`, returned at the same scale.  Every value arising
in the luma computation is such a dyadic rational in the normal float range,
so neither subnormals nor overflow occur.  When the most significant bit `E`
of `n` is at most 52 the value already fits in a 53-bit significand and is
returned unchanged; otherwise the significand is the integer nearest
`n / 2^(E-52)` (ties to even) and the result is that significand re-scaled —
exactly the binary64 rounding of the value. -/
def roundB64 (n : Nat) : Nat :=
  if n = 0 then 0
  else
    let E := msb n
    if E ≤ 52 then n
    else
      let d := 2 ^ (E - 52)
      let fl := n / d
      let r := n % d
      let m :=
        if r * 2 < d then fl
        else if r * 2 > d then fl + 1
        else if fl % 2 = 0 then fl else fl + 1
      m * d

/-- Exact value of the float64 literal `0.299` at scale `2^60`
(`0.299` parses to `5386305154335113 / 2^54`). -/
def c299 : Nat := 5386305154335113 * 2 ^ 6

/-- Exact value of the float64 literal `0.587` at scale `2^60`
(`0.587` parses to `2643612981266481 / 2^52`). -/
def c587 : Nat := 2643612981266481 * 2 ^ 8

/-- Exact value of the float64 literal `0.114` at scale `2^60`
(`0.114` parses to `8214565720323785 / 2^56`). -/
def c114 : Nat := 8214565720323785 * 2 ^ 4

/-- Per-pixel brightness as line 434 computes it:
`uint64(0.299*float64(r) + 0.587*float64(g) + 0.114*float64(b))` on the 8-bit
channel values, evaluated in IEEE binary64 with one rounding per operation
(Go without FMA contraction, as on amd64) and truncated toward zero.  The
float arithmetic is emulated exactly in fixed point at scale `2^60`: products
of the constants with 8-bit integers and all intermediate sums are dyadic
rationals with denominator dividing `2^60`, so this evaluation is exact. -/
def lumaCode (r g b : Nat) : Nat :=
  roundB64 (roundB64 (roundB64 (c299 * r) + roundB64 (c587 * g)) + roundB64 (c114 * b)) / 2 ^ 60

/-- An 8-bit RGBA color value (Go `color.RGBA`). -/
structure ColorRGBA where
  r : Nat
  g : Nat
  b : Nat
  a : Nat
deriving DecidableEq, Repr

/-- Go `image.RGBA` with bounds `(0,0)-(w,h)`: `pix[(y*w+x)*4 .. +3]` holds the
R,G,B,A bytes of pixel `(x,y)`. -/
structure RGBAImage where
  w : Nat
  h : Nat
  pix : List Nat
deriving DecidableEq, Repr

/-- The four bytes starting at offset `o` read as an RGBA color. -/
def readPix (l : List Nat) (o : Nat) : ColorRGBA :=
  ⟨l.getD o 0, l.getD (o + 1) 0, l.getD (o + 2) 0, l.getD (o + 3) 0⟩

/-- The four bytes starting at offset `o` overwritten with an RGBA color. -/
def writePix (l : List Nat) (o : Nat) (c : ColorRGBA) : List Nat :=
  (((l.set o c.r).set (o + 1) c.g).set (o + 2) c.b).set (o + 3) c.a

/-- The byte offset of pixel `(x,y)` in a `w`-wide RGBA image. -/
def pixOffset (w : Nat) (x y : Int) : Nat := (y.toNat * w + x.toNat) * 4

/-- Method `At` of `image.RGBA`: the pixel at `(x,y)`, or the zero color
outside the bounds (as in Go's image package). -/
def RGBAImage.pixAt (img : RGBAImage) (x y : Int) : ColorRGBA :=
  if 0 ≤ x ∧ x < (img.w : Int) ∧ 0 ≤ y ∧ y < (img.h : Int) then
    readPix img.pix (pixOffset img.w x y)
  else ⟨0, 0, 0, 0⟩

/-- Method `Set` of `image.RGBA` with a `color.RGBA` argument: overwrite the
four bytes of the pixel at `(x,y)`; out-of-bounds writes are dropped (as in
Go's image package). -/
def RGBAImage.setPix (img : RGBAImage) (x y : Int) (c : ColorRGBA) : RGBAImage :=
  if 0 ≤ x ∧ x < (img.w : Int) ∧ 0 ≤ y ∧ y < (img.h : Int) then
    { img with pix := writePix img.pix (pixOffset img.w x y) c }
  else img

/-- The pointer state `drawPointer` and `analyzeBackgroundBrightness` read:
position, decoded size, and the decoded shape buffer (`shapeOutBuffer`). -/
structure PointerDrawState where
  pos : Pt
  size : Pt
  shape : RGBAImage
deriving DecidableEq, Repr

/-- Integers from `lo` to `hi` inclusive (a Go `for v := lo; v <= hi; v++`). -/
def intRange (lo hi : Int) : List Int :=
  (List.range (hi + 1 - lo).toNat).map fun k => lo + k

/-- The sample points of `analyzeBackgroundBrightness` (lines 400-430): the
rectangle from `(pos - 20)` to `(pos + size + 20)` clamped to the image
bounds, minus the cursor's own footprint (the `continue` at lines 426-430). -/
def ringPoints (p : PointerDrawState) (img : RGBAImage) : List (Int × Int) :=
  let startX := if p.pos.x - 20 < 0 then 0 else p.pos.x - 20
  let startY := if p.pos.y - 20 < 0 then 0 else p.pos.y - 20
  let endX := if p.pos.x + p.size.x + 20 ≥ (img.w : Int) then (img.w : Int) - 1
              else p.pos.x + p.size.x + 20
  let endY := if p.pos.y + p.size.y + 20 ≥ (img.h : Int) then (img.h : Int) - 1
              else p.pos.y + p.size.y + 20
  ((intRange startY endY).flatMap fun y => (intRange startX endX).map fun x => (x, y)).filter
    fun q => ! decide (p.pos.x ≤ q.1 ∧ q.1 < p.pos.x + p.size.x ∧
                       p.pos.y ≤ q.2 ∧ q.2 < p.pos.y + p.size.y)

/-- The accumulated `totalBrightness` of the sampled ring (lines 432-436):
the sum of the per-pixel truncated lumas. -/
def ringLumaTotal (p : PointerDrawState) (img : RGBAImage) : Nat :=
  ((ringPoints p img).map fun q =>
    let c := img.pixAt q.1 q.2
    lumaCode c.r c.g c.b).sum

/-- Method `analyzeBackgroundBrightness` (lines 399-453): dark (`false`) when
no pixel was sampled, else light exactly when the integer average brightness
`totalBrightness / pixelCount` exceeds the threshold 80. -/
def analyzeBackgroundBrightness (p : PointerDrawState) (img : RGBAImage) : Bool :=
  let count := (ringPoints p img).length
  if count = 0 then false
  else decide (ringLumaTotal p img / count > 80)

/-- The mean luma criterion in the words of the claim: the exact mean BT.601
luma `(0.299R + 0.587G + 0.114B)` of the sampled ring over 8-bit channels, as
a rational, for comparison with what the code computes. -/
def meanLumaSpec (p : PointerDrawState) (img : RGBAImage) : ℚ :=
  (((ringPoints p img).map fun q =>
      let c := img.pixAt q.1 q.2
      ((299 * c.r + 587 * c.g + 114 * c.b : Nat) : ℚ) / 1000).sum) /
    ((ringPoints p img).length : ℚ)

/-- One iteration of the `drawPointer` loop body (lines 459-481) at shape
coordinate `(i,j)`: `none` when the pixel is skipped (`a == 0`), else the
target coordinate and the color written.  The 16-bit values returned by
`col.RGBA()` are `257·v`, so `a == 0` iff the 8-bit alpha is 0 and
`r==0 && g==0 && b==0 && a==0xFFFF` iff the 8-bit pixel is `(0,0,0,255)`.
The written color depends only on the decoded shape and on the background
classification made before the loop. -/
def drawPointerWrite (p : PointerDrawState) (isLight : Bool) (i j : Nat) :
    Option (Int × Int × ColorRGBA) :=
  let c := p.shape.pixAt i j
  if c.a = 0 then none
  else
    let col : ColorRGBA :=
      if c.r = 0 ∧ c.g = 0 ∧ c.b = 0 ∧ c.a = 255 then
        if isLight then ⟨0, 0, 0, 255⟩ else ⟨255, 255, 255, 255⟩
      else c
    some (p.pos.x + i, p.pos.y + j, col)

/-- The shape coordinates the `drawPointer` loop visits, row-major
(`j < size.Y` outer, `i < size.X` inner). -/
def drawPairs (p : PointerDrawState) : List (Nat × Nat) :=
  (List.range p.size.y.toNat).flatMap fun j =>
    (List.range p.size.x.toNat).map fun i => (i, j)

/-- Method `drawPointer` (lines 455-484): classify the background once, then
visit the shape row-major and perform each non-skipped write with `img.Set`. -/
def drawPointer (p : PointerDrawState) (img : RGBAImage) : RGBAImage :=
  let isLight := analyzeBackgroundBrightness p img
  ((drawPairs p).flatMap fun q => (drawPointerWrite p isLight q.1 q.2).toList).foldl
    (fun acc w => acc.setPix w.1 w.2.1 w.2.2) img

/-! Helper lemmas about the snapshot state machine. -/

/-- Fields of the duplicator state that `updatePointer` never writes. -/
theorem updatePointer_keeps (pc : ProviderCall) (s : DupState) :
    ((updatePointer pc s).1.updatePointerInfo = s.updatePointerInfo ∧
     (updatePointer pc s).1.acquiredFrame = s.acquiredFrame ∧
     (updatePointer pc s).1.heldFrame = s.heldFrame ∧
     (updatePointer pc s).1.needsSwizzle = s.needsSwizzle ∧
     (updatePointer pc s).1.stagedTex = s.stagedTex ∧
     (updatePointer pc s).1.surface = s.surface ∧
     (updatePointer pc s).1.outputDuplication = s.outputDuplication ∧
     (updatePointer pc s).1.dxgiOutput = s.dxgiOutput ∧
     (updatePointer pc s).1.size = s.size ∧
     (updatePointer pc s).1.mappedRectSet = s.mappedRectSet ∧
     (updatePointer pc s).1.movedRects = s.movedRects ∧
     (updatePointer pc s).1.dirtyRects = s.dirtyRects) := by
  unfold updatePointer
  split_ifs <;> simp
  all_goals split_ifs <;> simp

/-- The frame-tracking fields survive the copy phase unchanged. -/
theorem snapshotCopyPhase_keeps_frame (pc : ProviderCall) (s : DupState) :
    (snapshotCopyPhase pc s).2.1.acquiredFrame = s.acquiredFrame ∧
    (snapshotCopyPhase pc s).2.1.heldFrame = s.heldFrame := by
  unfold snapshotCopyPhase
  split_ifs <;> simp

/-- The copy phase never yields the distinguished no-image error. -/
theorem snapshotCopyPhase_ne_noImageYet (pc : ProviderCall) (s : DupState) :
    (snapshotCopyPhase pc s).1 ≠ .error .noImageYet := by
  unfold snapshotCopyPhase
  split_ifs <;> simp

/-- A successful `snapshotStage` only touches `stagedTex`, `surface` and
`size`. -/
theorem snapshotStage_ok_fields (pc : ProviderCall) (s t : DupState)
    (h : snapshotStage pc s = .ok t) :
    t.acquiredFrame = s.acquiredFrame ∧ t.heldFrame = s.heldFrame ∧
    t.needsSwizzle = s.needsSwizzle ∧ t.movedRects = s.movedRects ∧
    t.dirtyRects = s.dirtyRects := by
  unfold snapshotStage at h
  split_ifs at h <;> cases h <;> simp

/-- A failing `snapshotStage` reports exactly the stage-creation error. -/
theorem snapshotStage_err (pc : ProviderCall) (s : DupState) (e : SnapErr)
    (h : snapshotStage pc s = .error e) : e = .initializeStageFailed := by
  unfold snapshotStage at h
  split_ifs at h <;> cases h <;> rfl

/-- The frame-tracking fields survive `snapshotBody` unchanged. -/
theorem snapshotBody_keeps_frame (pc : ProviderCall) (s : DupState) :
    (snapshotBody pc s).2.1.acquiredFrame = s.acquiredFrame ∧
    (snapshotBody pc s).2.1.heldFrame = s.heldFrame := by
  unfold snapshotBody
  rcases h : (if s.updatePointerInfo then updatePointer pc s else (s, none)) with ⟨sU, eU⟩
  have hU : sU.acquiredFrame = s.acquiredFrame ∧ sU.heldFrame = s.heldFrame := by
    by_cases hf : s.updatePointerInfo
    · simp only [hf, if_true] at h
      have h1 := (updatePointer_keeps pc s).2.1
      have h2 := (updatePointer_keeps pc s).2.2.1
      rw [h] at h1 h2
      exact ⟨h1, h2⟩
    · simp only [hf, if_false] at h
      cases h
      exact ⟨rfl, rfl⟩
  cases eU with
  | some e => simp [hU.1, hU.2]
  | none =>
    by_cases hacc : pc.frameInfo.accumulatedFrames = 0
    · simp [hacc, hU.1, hU.2]
    · by_cases hqi : pc.queryInterfaceOk = true
      · rcases hst : snapshotStage pc sU with e | t
        · simp [hacc, hqi, hst, hU.1, hU.2]
        · have ht := snapshotStage_ok_fields pc sU t hst
          have hcp := snapshotCopyPhase_keeps_frame pc t
          simp [hacc, hqi, hst, hcp.1, hcp.2, ht.1, ht.2.1, hU.1, hU.2]
      · simp [hacc, hqi, hU.1, hU.2]

/-! Concrete states and provider behaviours used to evaluate the state machine
on specific runs. -/

/-- A freshly created duplicator: no frame, no staging surface, all reusable
buffers empty, pointer updating disabled unless overridden. -/
def cleanState : DupState :=
  ⟨false, false, false, false, false, false, true, true, ⟨0, 0⟩, false,
   ⟨0, 0⟩, false, ⟨0, 0⟩, ⟨0, 0, 0⟩, 0, ⟨0, 0, 0⟩, ⟨0, 0, 0⟩⟩

/-- A frame with one accumulated update, no metadata and no pointer update. -/
def baseFrame : FrameInfo := ⟨1, 0, 0, 0, false, ⟨0, 0⟩⟩

/-- A monochrome 0×0 shape description. -/
def baseShape : ShapeInfo := ⟨1, 0, 0, 0⟩

/-- A provider call on which everything succeeds and the frame is `baseFrame`. -/
def okCall : ProviderCall :=
  ⟨true, false, 0, 0, false, .ok, baseFrame, true, baseShape, true, true,
   64, 48, 0, true, [], true, true⟩

/-- After a full `Release`, every resource flag it manages is cleared. -/
theorem releaseStep_state_cleared (s : DupState) :
    (releaseStep s).1.acquiredFrame = false ∧ (releaseStep s).1.stagedTex = false ∧
    (releaseStep s).1.surface = false ∧ (releaseStep s).1.outputDuplication = false ∧
    (releaseStep s).1.dxgiOutput = false := by
  unfold releaseStep releaseFrameStep
  by_cases h1 : s.acquiredFrame <;> by_cases h2 : s.stagedTex <;>
    by_cases h3 : s.surface <;> by_cases h4 : s.outputDuplication <;>
    by_cases h5 : s.dxgiOutput <;> simp [h1, h2, h3, h4, h5]

/-- A `Release` on a state whose resource flags are all cleared issues no
provider call and returns the state unchanged. -/
theorem releaseStep_noop (s : DupState) (h1 : s.acquiredFrame = false)
    (h2 : s.stagedTex = false) (h3 : s.surface = false)
    (h4 : s.outputDuplication = false) (h5 : s.dxgiOutput = false) :
    releaseStep s = (s, ⟨0, 0, 0, 0, 0⟩) := by
  unfold releaseStep releaseFrameStep
  simp [h1, h2, h3, h4, h5]

/-- C9: calling `ReleaseFrame` twice in a row, and calling `Release` twice in
a row, are safe no-ops on the second call: the second call issues no provider
release call of any kind and leaves the duplicator state unchanged. -/
theorem releaseFrame_and_release_idempotent (s : DupState) :
    releaseFrameStep (releaseFrameStep s).1 = ((releaseFrameStep s).1, 0) ∧
    releaseStep (releaseStep s).1 = ((releaseStep s).1, ⟨0, 0, 0, 0, 0⟩) := by
  constructor
  · unfold releaseFrameStep
    split_ifs <;> simp_all
  · have hc := releaseStep_state_cleared s
    exact releaseStep_noop _ hc.1 hc.2.1 hc.2.2.1 hc.2.2.2.1 hc.2.2.2.2

/-- C10: when the provider description reports the desktop image in system
memory and `MapDesktopSurface` succeeds, `Snapshot` returns the mapped desktop
surface immediately: no frame is released or acquired, the pointer state is
untouched even when `UpdatePointerInfo` is set, and only the stored size and
the mapped-memory descriptor change. -/
theorem snapshot_system_memory_fast_path (pc : ProviderCall) (s : DupState)
    (h1 : pc.getDescOk = true) (h2 : pc.desktopImageInSystemMemory = true)
    (h3 : pc.mapDesktopOk = true) :
    snapshot pc s =
      ⟨.ok .desktopSurface,
       { s with size := ⟨pc.modeWidth, pc.modeHeight⟩, mappedRectSet := true },
       0, 0, false, []⟩ := by
  unfold snapshot snapshotDescState
  simp [h1, h2, h3]

/-- Closed instance of the fast-path theorem, with `UpdatePointerInfo` set. -/
theorem snapshot_system_memory_fast_path_witness :
    snapshot { okCall with desktopImageInSystemMemory := true, mapDesktopOk := true,
                           modeWidth := 64, modeHeight := 48 }
        { cleanState with updatePointerInfo := true } =
      ⟨.ok .desktopSurface,
       { cleanState with updatePointerInfo := true, size := ⟨64, 48⟩, mappedRectSet := true },
       0, 0, false, []⟩ := by
  exact snapshot_system_memory_fast_path _ _ rfl rfl rfl

/-- C2 fails as stated: after a provider timeout, `Snapshot` returns with the
`acquiredFrame` flag set to `true` although no frame is held (line 138 sets
the flag before the HRESULT is checked, and the timeout return precedes the
deferred release), so the flag is not false exactly when no frame is held. -/
theorem snapshot_timeout_flag_mismatch :
    (snapshot { okCall with acquire := .timeout } cleanState).state.acquiredFrame = true ∧
    (snapshot { okCall with acquire := .timeout } cleanState).state.heldFrame = false ∧
    (snapshot { okCall with acquire := .timeout } cleanState).releaseCalls = 0 := by
  decide

/-- C2 amended: entered with no held frame, `Snapshot` leaves no provider frame
held on any exit, never issues an acquire while a frame is held, and clears
`acquiredFrame` on every exit that acquired a frame; but on the `getDesc`
failure and fast-path exits the flag is simply unchanged, and after a timeout
or acquire failure it is left `true` although no frame is held. -/
theorem snapshot_frame_release_discipline (pc : ProviderCall) (s : DupState)
    (h : s.heldFrame = false) :
    (snapshot pc s).state.heldFrame = false ∧
    (snapshot pc s).doubleAcquire = false ∧
    ((snapshot pc s).state.acquiredFrame =
      if pc.getDescOk = false ∨ (pc.desktopImageInSystemMemory = true ∧ pc.mapDesktopOk = true) then
        s.acquiredFrame
      else if pc.acquire = .ok then false
      else true) := by
  have hdesc : (snapshotDescState pc s).heldFrame = false ∧
      (snapshotDescState pc s).acquiredFrame = s.acquiredFrame := by
    unfold snapshotDescState
    split_ifs <;> simp [h]
  have hrel : (releaseFrameStep (snapshotDescState pc s)).1.heldFrame = false := by
    unfold releaseFrameStep
    split_ifs <;> simp [hdesc.1]
  have hacqSt : (snapshotAcquireState pc s).acquiredFrame = true := by
    unfold snapshotAcquireState
    simp
  unfold snapshot
  by_cases h1 : pc.getDescOk = true
  · rw [if_neg (by simp [h1])]
    by_cases h2 : pc.desktopImageInSystemMemory = true ∧ pc.mapDesktopOk = true
    · rw [if_pos h2]
      simp [h1, h2, hdesc.1, hdesc.2]
    · rw [if_neg h2]
      rcases hacq : pc.acquire with _ | _ | _
      · simp [snapshotAcquireState, hrel, h1, h2, hacq, AcquireOutcome.isOk]
      · simp [snapshotAcquireState, hrel, h1, h2, hacq, AcquireOutcome.isOk]
      · have hbody := snapshotBody_keeps_frame pc (snapshotAcquireState pc s)
        have hba : (snapshotBody pc (snapshotAcquireState pc s)).2.1.acquiredFrame = true := by
          rw [hbody.1, hacqSt]
        refine ⟨?_, by simpa using hrel, ?_⟩
        · show (releaseFrameStep (snapshotBody pc (snapshotAcquireState pc s)).2.1).1.heldFrame = false
          unfold releaseFrameStep
          rw [if_pos (by simp [hba])]
        · show (releaseFrameStep (snapshotBody pc (snapshotAcquireState pc s)).2.1).1.acquiredFrame = _
          unfold releaseFrameStep
          rw [if_pos (by simp [hba])]
          simp [h1, h2, hacq]
  · rw [if_pos (by simp [h1])]
    have hgd : pc.getDescOk = false := by
      cases hx : pc.getDescOk
      · rfl
      · exact absurd hx h1
    simp [hgd, h]

/-- Closed instance of the release-discipline theorem on a successful run. -/
theorem snapshot_frame_release_discipline_witness :
    (snapshot okCall cleanState).state.heldFrame = false ∧
    (snapshot okCall cleanState).doubleAcquire = false ∧
    ((snapshot okCall cleanState).state.acquiredFrame =
      if okCall.getDescOk = false ∨
         (okCall.desktopImageInSystemMemory = true ∧ okCall.mapDesktopOk = true) then
        cleanState.acquiredFrame
      else if okCall.acquire = .ok then false
      else true) :=
  snapshot_frame_release_discipline okCall cleanState rfl

/-- Derived characterization: the exact condition under which `updatePointer`
fails — the frame carries a pointer update with a new shape whose fetch fails
or whose reported type is none of the three supported ones. -/
def pointerUpdateFails (pc : ProviderCall) : Prop :=
  pc.frameInfo.lastMouseUpdateTime ≠ 0 ∧ pc.frameInfo.pointerShapeBufferSize ≠ 0 ∧
    (pc.shapeFetchOk = false ∨
      (pc.shapeInfo.shapeType ≠ SHAPE_MONOCHROME ∧ pc.shapeInfo.shapeType ≠ SHAPE_COLOR ∧
       pc.shapeInfo.shapeType ≠ SHAPE_MASKED_COLOR))

/-- Correctness of `pointerUpdateFails` against `updatePointer`. -/
theorem updatePointer_err_none_iff (pc : ProviderCall) (s : DupState) :
    (updatePointer pc s).2 = none ↔ ¬ pointerUpdateFails pc := by
  by_cases hA : pc.frameInfo.lastMouseUpdateTime = 0
  · simp [updatePointer, hA, pointerUpdateFails]
  · by_cases hB : pc.frameInfo.pointerShapeBufferSize = 0
    · simp [updatePointer, hA, hB, pointerUpdateFails]
    · by_cases hC : pc.shapeFetchOk = true
      · by_cases h1 : pc.shapeInfo.shapeType = SHAPE_MONOCHROME
        · simp [updatePointer, hA, hB, hC, h1, pointerUpdateFails, SHAPE_MONOCHROME]
        · by_cases h2 : pc.shapeInfo.shapeType = SHAPE_COLOR
          · simp [updatePointer, hA, hB, hC, h1, h2, pointerUpdateFails,
                  SHAPE_MONOCHROME, SHAPE_COLOR]
          · by_cases h3 : pc.shapeInfo.shapeType = SHAPE_MASKED_COLOR
            · simp [updatePointer, hA, hB, hC, h1, h2, h3, pointerUpdateFails,
                    SHAPE_MONOCHROME, SHAPE_COLOR, SHAPE_MASKED_COLOR]
            · simp [updatePointer, hA, hB, hC, h1, h2, h3, pointerUpdateFails]
      · have hC' : pc.shapeFetchOk = false := by
          cases hx : pc.shapeFetchOk
          · rfl
          · exact absurd hx hC
        simp [updatePointer, hA, hB, hC', pointerUpdateFails]

/-- An `updatePointer` failure is never the distinguished no-image error. -/
theorem updatePointer_err_not_noImageYet (pc : ProviderCall) (s : DupState) :
    (updatePointer pc s).2 ≠ some .noImageYet := by
  unfold updatePointer
  split_ifs <;> simp
  all_goals split_ifs <;> simp

/-- Fields of the duplicator state that `ReleaseFrame` never writes. -/
theorem releaseFrameStep_keeps (s : DupState) :
    ((releaseFrameStep s).1.updatePointerInfo = s.updatePointerInfo ∧
     (releaseFrameStep s).1.needsSwizzle = s.needsSwizzle ∧
     (releaseFrameStep s).1.stagedTex = s.stagedTex ∧
     (releaseFrameStep s).1.size = s.size ∧
     (releaseFrameStep s).1.mappedRectSet = s.mappedRectSet ∧
     (releaseFrameStep s).1.ptrSize = s.ptrSize ∧
     (releaseFrameStep s).1.movedRects = s.movedRects ∧
     (releaseFrameStep s).1.dirtyRects = s.dirtyRects) := by
  unfold releaseFrameStep
  split_ifs <;> simp

/-- The body of `Snapshot` yields the no-image error exactly when the pointer
update (if enabled) did not fail and the frame's accumulated count is zero. -/
theorem snapshotBody_noImageYet_iff (pc : ProviderCall) (s : DupState) :
    (snapshotBody pc s).1 = .error .noImageYet ↔
      (¬ (s.updatePointerInfo = true ∧ pointerUpdateFails pc) ∧
       pc.frameInfo.accumulatedFrames = 0) := by
  unfold snapshotBody
  by_cases hU : s.updatePointerInfo
  · rcases he : updatePointer pc s with ⟨sU, eU⟩
    simp only [hU, if_true, he]
    cases eU with
    | some e =>
      have hne : (updatePointer pc s).2 ≠ none := by rw [he]; simp
      have hf : pointerUpdateFails pc := by
        by_contra hnf
        exact hne ((updatePointer_err_none_iff pc s).mpr hnf)
      have heny : e ≠ .noImageYet := by
        intro hcon
        exact updatePointer_err_not_noImageYet pc s (by rw [he, hcon])
      simp [hU, hf, heny]
    | none =>
      have hnf : ¬ pointerUpdateFails pc := by
        have : (updatePointer pc s).2 = none := by rw [he]
        exact (updatePointer_err_none_iff pc s).mp this
      by_cases hacc : pc.frameInfo.accumulatedFrames = 0
      · simp [hacc, hnf, hU]
      · by_cases hqi : pc.queryInterfaceOk = true
        · rcases hst : snapshotStage pc sU with e | t
          · have := snapshotStage_err pc sU e hst
            simp [hacc, hqi, hst, this, hnf, hU]
          · simp [hacc, hqi, hst, snapshotCopyPhase_ne_noImageYet pc t, hnf, hU]
        · simp [hacc, hqi, hnf, hU]
  · have hU : ¬ s.updatePointerInfo = true := hU
    simp only [hU, if_false]
    by_cases hacc : pc.frameInfo.accumulatedFrames = 0
    · simp [hacc, hU]
    · by_cases hqi : pc.queryInterfaceOk = true
      · rcases hst : snapshotStage pc s with e | t
        · have := snapshotStage_err pc s e hst
          simp [hacc, hqi, hst, this, hU]
        · simp [hacc, hqi, hst, snapshotCopyPhase_ne_noImageYet pc t, hU]
      · simp [hacc, hqi, hU]

/-- C3 amended: `Snapshot` returns the distinguished `ErrNoImageYet` exactly on
a provider timeout, or on an acquired frame whose accumulated count is zero
provided the pointer-state update (when `UpdatePointerInfo` is set) did not
fail first — a pointer-decode failure preempts the zero-accumulated case and a
successful fast path preempts both. -/
theorem snapshot_noImageYet_iff (pc : ProviderCall) (s : DupState) :
    (snapshot pc s).result = .error .noImageYet ↔
      (pc.getDescOk = true ∧
       ¬ (pc.desktopImageInSystemMemory = true ∧ pc.mapDesktopOk = true) ∧
       (pc.acquire = .timeout ∨
         (pc.acquire = .ok ∧
          ¬ (s.updatePointerInfo = true ∧ pointerUpdateFails pc) ∧
          pc.frameInfo.accumulatedFrames = 0))) := by
  unfold snapshot
  by_cases h1 : pc.getDescOk = true
  · rw [if_neg (by simp [h1])]
    by_cases h2 : pc.desktopImageInSystemMemory = true ∧ pc.mapDesktopOk = true
    · rw [if_pos h2]
      simp [h1, h2]
    · rw [if_neg h2]
      rcases hacq : pc.acquire with _ | _ | _
      · simp [h1, h2, hacq]
      · simp [h1, h2, hacq]
      · have hupd : (snapshotAcquireState pc s).updatePointerInfo = s.updatePointerInfo := by
          unfold snapshotAcquireState snapshotDescState releaseFrameStep
          split_ifs <;> simp
        have hbody := snapshotBody_noImageYet_iff pc (snapshotAcquireState pc s)
        rw [hupd] at hbody
        simp [h1, h2, hacq, hbody]
  · have hgd : pc.getDescOk = false := by
      cases hx : pc.getDescOk
      · rfl
      · exact absurd hx h1
    simp [hgd]

/-- A frame with zero accumulated updates that also carries a pointer-shape
update. -/
def zeroAccShapeFrame : FrameInfo := ⟨0, 0, 7, 16, false, ⟨0, 0⟩⟩

/-- A provider call delivering `zeroAccShapeFrame` whose pointer-shape fetch
fails. -/
def shapeFetchFailCall : ProviderCall :=
  { okCall with frameInfo := zeroAccShapeFrame, shapeFetchOk := false }

/-- C3 fails as stated: a run on which the acquired frame has a zero
accumulated-frame count but the pointer-shape fetch fails (with
`UpdatePointerInfo` set) returns the pointer-shape error, not `ErrNoImageYet`,
so the zero-accumulated case does not always map to the transient no-frame
result. -/
theorem snapshot_zero_accumulated_preempted :
    (snapshot shapeFetchFailCall { cleanState with updatePointerInfo := true }).result =
      .error .pointerShapeFetchFailed ∧
    (snapshot shapeFetchFailCall { cleanState with updatePointerInfo := true }).result ≠
      .error .noImageYet := by
  decide

/-- On an unsupported shape type, `updatePointer` reports it and zeroes the
stored pointer size (lines 390-392). -/
theorem updatePointer_unsupported (pc : ProviderCall) (s : DupState)
    (h5 : pc.frameInfo.lastMouseUpdateTime ≠ 0)
    (h6 : pc.frameInfo.pointerShapeBufferSize ≠ 0)
    (h7 : pc.shapeFetchOk = true)
    (h8 : pc.shapeInfo.shapeType ≠ SHAPE_MONOCHROME)
    (h9 : pc.shapeInfo.shapeType ≠ SHAPE_COLOR)
    (h10 : pc.shapeInfo.shapeType ≠ SHAPE_MASKED_COLOR) :
    (updatePointer pc s).2 = some (.unsupportedPointerType pc.shapeInfo.shapeType) ∧
    (updatePointer pc s).1.ptrSize = ⟨0, 0⟩ ∧
    (updatePointer pc s).1.acquiredFrame = s.acquiredFrame := by
  simp [updatePointer, h5, h6, h7, h8, h9, h10]

/-- The body of `Snapshot` stops at the `updatePointer` error on an unsupported
shape type: no staging, no rect retrieval, no copy. -/
theorem snapshotBody_unsupported (pc : ProviderCall) (s : DupState)
    (h3 : s.updatePointerInfo = true)
    (h5 : pc.frameInfo.lastMouseUpdateTime ≠ 0)
    (h6 : pc.frameInfo.pointerShapeBufferSize ≠ 0)
    (h7 : pc.shapeFetchOk = true)
    (h8 : pc.shapeInfo.shapeType ≠ SHAPE_MONOCHROME)
    (h9 : pc.shapeInfo.shapeType ≠ SHAPE_COLOR)
    (h10 : pc.shapeInfo.shapeType ≠ SHAPE_MASKED_COLOR) :
    snapshotBody pc s =
      (.error (.unsupportedPointerType pc.shapeInfo.shapeType),
       (updatePointer pc s).1, []) := by
  have hu := (updatePointer_unsupported pc s h5 h6 h7 h8 h9 h10).1
  unfold snapshotBody
  rcases he : updatePointer pc s with ⟨sU, eU⟩
  rw [he] at hu
  simp only at hu
  subst hu
  simp [h3, he]

/-- With the fast path off, the post-acquire state only sets the frame flags;
everything else is carried over from the entry state. -/
theorem snapshotAcquireState_fields (pc : ProviderCall) (s : DupState)
    (h2 : pc.desktopImageInSystemMemory = false) :
    (snapshotAcquireState pc s).acquiredFrame = true ∧
    (snapshotAcquireState pc s).updatePointerInfo = s.updatePointerInfo ∧
    (snapshotAcquireState pc s).needsSwizzle = s.needsSwizzle ∧
    (snapshotAcquireState pc s).stagedTex = s.stagedTex ∧
    (snapshotAcquireState pc s).movedRects = s.movedRects ∧
    (snapshotAcquireState pc s).dirtyRects = s.dirtyRects ∧
    (snapshotAcquireState pc s).mappedRectSet = s.mappedRectSet ∧
    (snapshotAcquireState pc s).size = s.size ∧
    (snapshotAcquireState pc s).ptrSize = s.ptrSize ∧
    (snapshotAcquireState pc s).shapeInBuffer = s.shapeInBuffer ∧
    (snapshotAcquireState pc s).shapeOutGen = s.shapeOutGen := by
  unfold snapshotAcquireState snapshotDescState releaseFrameStep
  simp only [h2, Bool.false_eq_true, if_false]
  split_ifs <;> simp

/-- C4 amended: an unrecognized pointer-shape type makes `updatePointer` fail
with the unsupported-shape error and reset the stored shape size to zero, and
that failure propagates out of `Snapshot` — the call returns the decode error
instead of a frame result.  The frame-capture state is untouched (staging
flag, swizzle flag, rect buffers, mapped-memory flag, stored size), the frame
is released and the duplicator remains usable. -/
theorem snapshot_unsupported_pointer_shape (pc : ProviderCall) (s : DupState)
    (h1 : pc.getDescOk = true) (h2 : pc.desktopImageInSystemMemory = false)
    (h3 : s.updatePointerInfo = true) (h4 : pc.acquire = .ok)
    (h5 : pc.frameInfo.lastMouseUpdateTime ≠ 0)
    (h6 : pc.frameInfo.pointerShapeBufferSize ≠ 0)
    (h7 : pc.shapeFetchOk = true)
    (h8 : pc.shapeInfo.shapeType ≠ SHAPE_MONOCHROME)
    (h9 : pc.shapeInfo.shapeType ≠ SHAPE_COLOR)
    (h10 : pc.shapeInfo.shapeType ≠ SHAPE_MASKED_COLOR) :
    (snapshot pc s).result = .error (.unsupportedPointerType pc.shapeInfo.shapeType) ∧
    (snapshot pc s).state.ptrSize = ⟨0, 0⟩ ∧
    (snapshot pc s).state.acquiredFrame = false ∧
    (snapshot pc s).state.heldFrame = false ∧
    (snapshot pc s).state.stagedTex = s.stagedTex ∧
    (snapshot pc s).state.needsSwizzle = s.needsSwizzle ∧
    (snapshot pc s).state.movedRects = s.movedRects ∧
    (snapshot pc s).state.dirtyRects = s.dirtyRects ∧
    (snapshot pc s).state.mappedRectSet = s.mappedRectSet ∧
    (snapshot pc s).state.size = s.size ∧
    (snapshot pc s).copies = [] := by
  have hAF := snapshotAcquireState_fields pc s h2
  have hupd3 : (snapshotAcquireState pc s).updatePointerInfo = true := by
    rw [hAF.2.1, h3]
  have hbody := snapshotBody_unsupported pc (snapshotAcquireState pc s)
    hupd3 h5 h6 h7 h8 h9 h10
  have huk := updatePointer_keeps pc (snapshotAcquireState pc s)
  have hua := updatePointer_unsupported pc (snapshotAcquireState pc s) h5 h6 h7 h8 h9 h10
  have hacqU : (updatePointer pc (snapshotAcquireState pc s)).1.acquiredFrame = true := by
    rw [hua.2.2, hAF.1]
  have hsnap : snapshot pc s =
      ⟨(snapshotBody pc (snapshotAcquireState pc s)).1,
       (releaseFrameStep (snapshotBody pc (snapshotAcquireState pc s)).2.1).1,
       (releaseFrameStep (snapshotDescState pc s)).2 +
         (releaseFrameStep (snapshotBody pc (snapshotAcquireState pc s)).2.1).2,
       1,
       (releaseFrameStep (snapshotDescState pc s)).1.heldFrame,
       (snapshotBody pc (snapshotAcquireState pc s)).2.2⟩ := by
    unfold snapshot
    rw [if_neg (by simp [h1]), if_neg (by simp [h2]), h4]
  rw [hsnap, hbody]
  have hrel : releaseFrameStep (updatePointer pc (snapshotAcquireState pc s)).1 =
      ({ (updatePointer pc (snapshotAcquireState pc s)).1 with
           acquiredFrame := false, heldFrame := false }, 1) := by
    unfold releaseFrameStep
    rw [if_pos (by simp [hacqU])]
  refine ⟨rfl, ?_, ?_, ?_, ?_, ?_, ?_, ?_, ?_, ?_, rfl⟩ <;>
    simp only [hrel] <;>
    simp [hua.2.1, huk.2.2.2.2.1, huk.2.2.2.1, huk.2.2.2.2.2.2.2.2.1,
          huk.2.2.2.2.2.2.2.2.2.1, huk.2.2.2.2.2.2.2.2.2.2.1, huk.2.2.2.2.2.2.2.2.2.2.2,
          hAF.2.2.1, hAF.2.2.2.1, hAF.2.2.2.2.1, hAF.2.2.2.2.2.1, hAF.2.2.2.2.2.2.1,
          hAF.2.2.2.2.2.2.2.1]

/-- A provider call delivering a pointer-shape update whose reported type 11
is none of the supported encodings. -/
def unsupportedShapeCall : ProviderCall :=
  { okCall with frameInfo := ⟨1, 0, 7, 16, false, ⟨0, 0⟩⟩, shapeInfo := ⟨11, 4, 4, 1⟩ }

/-- C4 fails as stated: on a frame carrying an unsupported pointer-shape type
(with `UpdatePointerInfo` set), `Snapshot` returns the unsupported-shape error
and not a frame result, so the capture call does not still yield its frame. -/
theorem snapshot_unsupported_no_frame_result :
    (snapshot unsupportedShapeCall { cleanState with updatePointerInfo := true }).result =
      .error (.unsupportedPointerType 11) ∧
    (snapshot unsupportedShapeCall { cleanState with updatePointerInfo := true }).result ≠
      .ok .stagedSurface ∧
    (snapshot unsupportedShapeCall { cleanState with updatePointerInfo := true }).result ≠
      .ok .desktopSurface := by
  decide

/-- Closed instance of the unsupported-shape theorem. -/
theorem snapshot_unsupported_pointer_shape_witness :
    (snapshot unsupportedShapeCall { cleanState with updatePointerInfo := true }).result =
      .error (.unsupportedPointerType unsupportedShapeCall.shapeInfo.shapeType) ∧
    (snapshot unsupportedShapeCall { cleanState with updatePointerInfo := true }).state.ptrSize = ⟨0, 0⟩ ∧
    (snapshot unsupportedShapeCall { cleanState with updatePointerInfo := true }).state.acquiredFrame = false ∧
    (snapshot unsupportedShapeCall { cleanState with updatePointerInfo := true }).state.heldFrame = false ∧
    (snapshot unsupportedShapeCall { cleanState with updatePointerInfo := true }).state.stagedTex =
      ({ cleanState with updatePointerInfo := true } : DupState).stagedTex ∧
    (snapshot unsupportedShapeCall { cleanState with updatePointerInfo := true }).state.needsSwizzle =
      ({ cleanState with updatePointerInfo := true } : DupState).needsSwizzle ∧
    (snapshot unsupportedShapeCall { cleanState with updatePointerInfo := true }).state.movedRects =
      ({ cleanState with updatePointerInfo := true } : DupState).movedRects ∧
    (snapshot unsupportedShapeCall { cleanState with updatePointerInfo := true }).state.dirtyRects =
      ({ cleanState with updatePointerInfo := true } : DupState).dirtyRects ∧
    (snapshot unsupportedShapeCall { cleanState with updatePointerInfo := true }).state.mappedRectSet =
      ({ cleanState with updatePointerInfo := true } : DupState).mappedRectSet ∧
    (snapshot unsupportedShapeCall { cleanState with updatePointerInfo := true }).state.size =
      ({ cleanState with updatePointerInfo := true } : DupState).size ∧
    (snapshot unsupportedShapeCall { cleanState with updatePointerInfo := true }).copies = [] :=
  snapshot_unsupported_pointer_shape unsupportedShapeCall
    { cleanState with updatePointerInfo := true }
    rfl rfl rfl rfl (by decide) (by decide) rfl (by decide) (by decide) (by decide)

/-- The copy-strategy trichotomy at the level of the copy phase, for any state
it is entered with (the swizzle flag and the reported copies hold even when
the final map fails, since the copies precede it). -/
theorem snapshotCopyPhase_strategy (pc : ProviderCall) (s : DupState)
    (hmr : pc.moveRectsOk = true) (hdr : pc.dirtyRectsOk = true) :
    ((pc.frameInfo.totalMetadataBufferSize = 0 →
        (snapshotCopyPhase pc s).2.2 = [CopyOp.fullCopy] ∧
        (snapshotCopyPhase pc s).2.1.needsSwizzle = true) ∧
     (pc.frameInfo.totalMetadataBufferSize ≠ 0 → pc.moveRectCount = 0 →
        (snapshotCopyPhase pc s).2.2 =
          pc.dirtyRectList.map (fun r => CopyOp.subRegion r.left r.top r) ∧
        (snapshotCopyPhase pc s).2.1.needsSwizzle = s.needsSwizzle) ∧
     (pc.frameInfo.totalMetadataBufferSize ≠ 0 → pc.moveRectCount ≠ 0 →
        (snapshotCopyPhase pc s).2.2 = [CopyOp.fullCopy] ∧
        (snapshotCopyPhase pc s).2.1.needsSwizzle = s.needsSwizzle)) := by
  unfold snapshotCopyPhase
  refine ⟨fun hz => ?_, fun hnz hm0 => ?_, fun hnz hm1 => ?_⟩
  · rw [if_neg (by simp [hz])]
    split_ifs <;> simp
  · rw [if_pos (by omega), if_neg (by simp [hmr]), if_neg (by simp [hdr])]
    simp only [hm0, if_pos rfl]
    split_ifs <;> simp
  · rw [if_pos (by omega), if_neg (by simp [hmr]), if_neg (by simp [hdr])]
    rw [if_neg hm1]
    split_ifs <;> simp

/-- On the success path up to the copy phase, `snapshotBody` is the copy phase
run from a state whose swizzle flag and rect buffers are the entry ones. -/
theorem snapshotBody_success_shape (pc : ProviderCall) (s : DupState)
    (hp : ¬ (s.updatePointerInfo = true ∧ pointerUpdateFails pc))
    (hacc : pc.frameInfo.accumulatedFrames ≠ 0)
    (hqi : pc.queryInterfaceOk = true)
    (hstage : s.stagedTex = true ∨ pc.stageOk = true) :
    ∃ t : DupState, snapshotBody pc s = snapshotCopyPhase pc t ∧
      t.needsSwizzle = s.needsSwizzle ∧ t.movedRects = s.movedRects ∧
      t.dirtyRects = s.dirtyRects := by
  unfold snapshotBody
  rcases he : (if s.updatePointerInfo then updatePointer pc s else (s, none)) with ⟨sU, eU⟩
  have hkeep : eU = none ∧ sU.needsSwizzle = s.needsSwizzle ∧
      sU.movedRects = s.movedRects ∧ sU.dirtyRects = s.dirtyRects ∧
      sU.stagedTex = s.stagedTex := by
    by_cases hf : s.updatePointerInfo
    · simp only [hf, if_true] at he
      have hn : (updatePointer pc s).2 = none :=
        (updatePointer_err_none_iff pc s).mpr fun hfail => hp ⟨by simpa using hf, hfail⟩
      rw [he] at hn
      have hk := updatePointer_keeps pc s
      rw [he] at hk
      exact ⟨by simpa using hn, hk.2.2.2.1, hk.2.2.2.2.2.2.2.2.2.2.1,
             hk.2.2.2.2.2.2.2.2.2.2.2, hk.2.2.2.2.1⟩
    · simp only [hf, if_false] at he
      cases he
      exact ⟨rfl, rfl, rfl, rfl, rfl⟩
  obtain ⟨hnE, hkn, hkm, hkd, hks⟩ := hkeep
  subst hnE
  simp only [he]
  rw [if_neg hacc, if_neg (by simp [hqi])]
  rcases hst : snapshotStage pc sU with e | t
  · exfalso
    unfold snapshotStage at hst
    split_ifs at hst with hs1 hs2
    · rcases hstage with hs | hs
      · exact hs1 (by rw [hks, hs])
      · exact hs2 (by simp [hs])
  · have ht := snapshotStage_ok_fields pc sU t hst
    exact ⟨t, by simp [hst], by rw [ht.2.2.1, hkn], by rw [ht.2.2.2.1, hkm],
           by rw [ht.2.2.2.2, hkd]⟩

/-- C5: for a successfully captured frame, the copy strategy is chosen exactly
as the source does: zero total metadata forces a full copy and sets the
swizzle-required flag; metadata with no moved rects copies each retrieved
dirty rect as a sub-region box copy at its own coordinates; metadata with
moved rects falls back to a full copy; the swizzle flag is unchanged in the
latter two cases. -/
theorem snapshot_copy_strategy (pc : ProviderCall) (s : DupState)
    (h1 : pc.getDescOk = true) (h2 : pc.desktopImageInSystemMemory = false)
    (h4 : pc.acquire = .ok)
    (hp : ¬ (s.updatePointerInfo = true ∧ pointerUpdateFails pc))
    (hacc : pc.frameInfo.accumulatedFrames ≠ 0)
    (hqi : pc.queryInterfaceOk = true)
    (hstage : s.stagedTex = true ∨ pc.stageOk = true)
    (hmr : pc.moveRectsOk = true) (hdr : pc.dirtyRectsOk = true) :
    ((pc.frameInfo.totalMetadataBufferSize = 0 →
        (snapshot pc s).copies = [CopyOp.fullCopy] ∧
        (snapshot pc s).state.needsSwizzle = true) ∧
     (pc.frameInfo.totalMetadataBufferSize ≠ 0 → pc.moveRectCount = 0 →
        (snapshot pc s).copies =
          pc.dirtyRectList.map (fun r => CopyOp.subRegion r.left r.top r) ∧
        (snapshot pc s).state.needsSwizzle = s.needsSwizzle) ∧
     (pc.frameInfo.totalMetadataBufferSize ≠ 0 → pc.moveRectCount ≠ 0 →
        (snapshot pc s).copies = [CopyOp.fullCopy] ∧
        (snapshot pc s).state.needsSwizzle = s.needsSwizzle)) := by
  have hAF := snapshotAcquireState_fields pc s h2
  have hp2 : ¬ ((snapshotAcquireState pc s).updatePointerInfo = true ∧ pointerUpdateFails pc) := by
    rw [hAF.2.1]
    exact hp
  have hstage2 : (snapshotAcquireState pc s).stagedTex = true ∨ pc.stageOk = true := by
    rw [hAF.2.2.2.1]
    exact hstage
  obtain ⟨t, hbt, htn, _, _⟩ :=
    snapshotBody_success_shape pc (snapshotAcquireState pc s) hp2 hacc hqi hstage2
  have hsnap : snapshot pc s =
      ⟨(snapshotBody pc (snapshotAcquireState pc s)).1,
       (releaseFrameStep (snapshotBody pc (snapshotAcquireState pc s)).2.1).1,
       (releaseFrameStep (snapshotDescState pc s)).2 +
         (releaseFrameStep (snapshotBody pc (snapshotAcquireState pc s)).2.1).2,
       1,
       (releaseFrameStep (snapshotDescState pc s)).1.heldFrame,
       (snapshotBody pc (snapshotAcquireState pc s)).2.2⟩ := by
    unfold snapshot
    rw [if_neg (by simp [h1]), if_neg (by simp [h2]), h4]
  have hsw : t.needsSwizzle = s.needsSwizzle := by
    rw [htn, hAF.2.2.1]
  have hcs := snapshotCopyPhase_strategy pc t hmr hdr
  have hfinsw : (snapshot pc s).state.needsSwizzle =
      (snapshotCopyPhase pc t).2.1.needsSwizzle := by
    rw [hsnap]
    show (releaseFrameStep (snapshotBody pc (snapshotAcquireState pc s)).2.1).1.needsSwizzle = _
    rw [(releaseFrameStep_keeps _).2.1, hbt]
  have hfincp : (snapshot pc s).copies = (snapshotCopyPhase pc t).2.2 := by
    rw [hsnap]
    show (snapshotBody pc (snapshotAcquireState pc s)).2.2 = _
    rw [hbt]
  refine ⟨fun hz => ?_, fun hnz hm0 => ?_, fun hnz hm1 => ?_⟩
  · exact ⟨by rw [hfincp, (hcs.1 hz).1], by rw [hfinsw, (hcs.1 hz).2]⟩
  · exact ⟨by rw [hfincp, (hcs.2.1 hnz hm0).1],
           by rw [hfinsw, (hcs.2.1 hnz hm0).2, hsw]⟩
  · exact ⟨by rw [hfincp, (hcs.2.2 hnz hm1).1],
           by rw [hfinsw, (hcs.2.2 hnz hm1).2, hsw]⟩

/-- A frame with metadata and two dirty rects, no moved rects. -/
def dirtyPairCall : ProviderCall :=
  { okCall with frameInfo := ⟨1, 5, 0, 0, false, ⟨0, 0⟩⟩,
                dirtyRectList := [⟨0, 0, 2, 2⟩, ⟨3, 1, 5, 4⟩] }

/-- Closed instance of the copy-strategy theorem: two dirty rects and no moved
rects produce exactly the two sub-region copies at their own coordinates and
leave the swizzle flag alone. -/
theorem snapshot_copy_strategy_witness :
    (snapshot dirtyPairCall cleanState).copies =
      [CopyOp.subRegion 0 0 ⟨0, 0, 2, 2⟩, CopyOp.subRegion 3 1 ⟨3, 1, 5, 4⟩] ∧
    (snapshot dirtyPairCall cleanState).state.needsSwizzle = cleanState.needsSwizzle := by
  have h := snapshot_copy_strategy dirtyPairCall cleanState rfl rfl rfl
    (fun hcon => by simpa [cleanState] using hcon.1) (by decide) rfl (Or.inr rfl) rfl rfl
  exact ⟨by rw [(h.2.1 (by decide) rfl).1]; rfl, (h.2.1 (by decide) rfl).2⟩

/-- C7 amended: a rect buffer is reallocated exactly when its current length
(not its capacity) is zero — the retrieval loop probes with size 1 — or below
the frame's rect count; its length is then truncated to the retrieved count,
so length can drop below capacity and a later request within capacity still
reallocates.  The raw shape input buffer is never truncated, so its length
always equals its capacity and for it reallocation happens exactly when the
required byte size exceeds the capacity, which never shrinks.  The decoded
shape output buffer is recreated on every shape update regardless of size. -/
theorem buffer_growth_characterization :
    (∀ (b : GrowBuf) (n : Nat),
        ((retrieveRects b n).gen ≠ b.gen ↔ (b.len = 0 ∨ (1 ≤ b.len ∧ b.len < n))) ∧
        (retrieveRects b n).len = n) ∧
    (∀ (b : GrowBuf) (n : Nat), b.len = b.cap →
        (((b.growIfNeeded n).gen ≠ b.gen ↔ b.cap < n) ∧
         b.cap ≤ (b.growIfNeeded n).cap ∧
         (b.growIfNeeded n).len = (b.growIfNeeded n).cap)) ∧
    (∀ (pc : ProviderCall) (s : DupState),
        pc.frameInfo.lastMouseUpdateTime ≠ 0 →
        pc.frameInfo.pointerShapeBufferSize ≠ 0 →
        pc.shapeFetchOk = true →
        (updatePointer pc s).1.shapeOutGen = s.shapeOutGen + 1 ∧
        (updatePointer pc s).1.shapeInBuffer =
          s.shapeInBuffer.growIfNeeded pc.frameInfo.pointerShapeBufferSize) := by
  refine ⟨fun b n => ?_, fun b n hbc => ?_, fun pc s h5 h6 h7 => ?_⟩
  · rcases b with ⟨l, c, g⟩
    by_cases h0 : l = 0
    · subst h0
      by_cases hn : 1 < n
      · simp [retrieveRects, GrowBuf.growIfNeeded, GrowBuf.makeNew, GrowBuf.reslice, hn]
        omega
      · simp [retrieveRects, GrowBuf.growIfNeeded, GrowBuf.makeNew, GrowBuf.reslice, hn]
    · have h1 : ¬ l < 1 := by omega
      by_cases hn : l < n
      · simp [retrieveRects, GrowBuf.growIfNeeded, GrowBuf.makeNew, GrowBuf.reslice, h1, hn]
        omega
      · simp [retrieveRects, GrowBuf.growIfNeeded, GrowBuf.makeNew, GrowBuf.reslice, h1, hn]
        omega
  · rcases b with ⟨l, c, g⟩
    unfold GrowBuf.growIfNeeded GrowBuf.makeNew
    simp only at hbc
    subst hbc
    split_ifs <;> simp_all <;> omega
  · simp [updatePointer, h5, h6, h7]
    all_goals split_ifs <;> simp

/-- A frame carrying a pointer-shape update of the supported monochrome type. -/
def shapeUpdateCall : ProviderCall :=
  { okCall with frameInfo := ⟨1, 0, 7, 16, false, ⟨0, 0⟩⟩ }

/-- Closed instance of the buffer-growth characterization. -/
theorem buffer_growth_characterization_witness :
    (retrieveRects ⟨2, 3, 5⟩ 3).gen ≠ (⟨2, 3, 5⟩ : GrowBuf).gen ∧
    ((GrowBuf.growIfNeeded ⟨4, 4, 1⟩ 9).gen ≠ (⟨4, 4, 1⟩ : GrowBuf).gen ↔ 4 < 9) ∧
    (updatePointer shapeUpdateCall cleanState).1.shapeOutGen = cleanState.shapeOutGen + 1 := by
  refine ⟨?_, ?_, ?_⟩
  · exact (buffer_growth_characterization.1 ⟨2, 3, 5⟩ 3).1.mpr
      (Or.inr ⟨by decide, by decide⟩)
  · exact (buffer_growth_characterization.2.1 ⟨4, 4, 1⟩ 9 rfl).1
  · exact (buffer_growth_characterization.2.2 shapeUpdateCall cleanState
      (by decide) (by decide) rfl).1

/-- A frame with metadata and three dirty rects. -/
def dirtyTripleCall : ProviderCall :=
  { okCall with frameInfo := ⟨1, 5, 0, 0, false, ⟨0, 0⟩⟩,
                dirtyRectList := [⟨0, 0, 1, 1⟩, ⟨1, 0, 2, 1⟩, ⟨2, 0, 3, 1⟩] }

/-- C7 fails as stated: after a three-rect frame and then a two-rect frame the
dirty-rect buffer has length 2 but capacity 3; a following three-rect frame
requests a count that does not exceed the capacity, yet the buffer is
reallocated (its allocation generation changes), because the code compares
against the truncated length. -/
theorem rect_buffer_reallocated_within_capacity :
    (snapshot dirtyPairCall (snapshot dirtyTripleCall cleanState).state).state.dirtyRects.len = 2 ∧
    (snapshot dirtyPairCall (snapshot dirtyTripleCall cleanState).state).state.dirtyRects.cap = 3 ∧
    (snapshot dirtyTripleCall
        (snapshot dirtyPairCall (snapshot dirtyTripleCall cleanState).state).state).state.dirtyRects.gen ≠
      (snapshot dirtyPairCall (snapshot dirtyTripleCall cleanState).state).state.dirtyRects.gen := by
  decide

/-! Generic indexing lemmas for buffers built row-major by a loop. -/

/-- Dropping `k` whole blocks from a flattened run of equal-length blocks lands
exactly at the start of block `k`. -/
theorem flatMap_range'_drop {α : Type} (f : Nat → List α) (L : Nat) :
    ∀ (n s k : Nat), k < n → (∀ m, m < n → (f (s + m)).length = L) →
      ((List.range' s n).flatMap f).drop (k * L) =
        f (s + k) ++ (List.range' (s + k + 1) (n - k - 1)).flatMap f := by
  intro n
  induction n with
  | zero => intro s k hk; omega
  | succ m ih =>
    intro s k hk hL
    show ((f s ++ (List.range' (s + 1) m).flatMap f).drop (k * L)) = _
    cases k with
    | zero =>
      simp
    | succ j =>
      have hlen : (f s).length = L := by simpa using hL 0 (by omega)
      have harith : (j + 1) * L = (f s).length + j * L := by rw [hlen]; ring
      rw [harith, List.drop_append]
      have := ih (s + 1) j (by omega) (fun m' hm' => by
        have := hL (m' + 1) (by omega)
        simpa [Nat.add_assoc, Nat.add_comm, Nat.add_left_comm] using this)
      rw [this]
      have e1 : s + 1 + j = s + (j + 1) := by omega
      have e3 : m - j - 1 = m + 1 - (j + 1) - 1 := by omega
      rw [e1, e3]

/-- The block at index `k` of a flattened run of equal-length blocks. -/
theorem flatMap_range_segment {α : Type} (f : Nat → List α) (L n k : Nat)
    (hk : k < n) (hL : ∀ m, m < n → (f m).length = L) :
    (((List.range n).flatMap f).drop (k * L)).take L = f k := by
  rw [List.range_eq_range',
      flatMap_range'_drop f L n 0 k hk (fun m hm => by simpa using hL m hm)]
  simp only [Nat.zero_add]
  have hlen : (f k).length = L := hL k hk
  rw [List.take_append_of_le_length (le_of_eq hlen.symm)]
  exact List.take_of_length_le (le_of_eq hlen)

/-- The length of a flattened run of equal-length blocks. -/
theorem flatMap_range'_length {α : Type} (f : Nat → List α) (L : Nat) :
    ∀ (n s : Nat), (∀ m, m < n → (f (s + m)).length = L) →
      ((List.range' s n).flatMap f).length = n * L := by
  intro n
  induction n with
  | zero => intro s _; simp
  | succ m ih =>
    intro s hL
    show (f s ++ (List.range' (s + 1) m).flatMap f).length = _
    rw [List.length_append]
    have h0 : (f s).length = L := by simpa using hL 0 (by omega)
    have := ih (s + 1) (fun m' hm' => by
      have := hL (m' + 1) (by omega)
      simpa [Nat.add_assoc, Nat.add_comm, Nat.add_left_comm] using this)
    rw [h0, this]
    ring

/-- Length version over `List.range`. -/
theorem flatMap_range_length {α : Type} (f : Nat → List α) (L n : Nat)
    (hL : ∀ m, m < n → (f m).length = L) :
    ((List.range n).flatMap f).length = n * L := by
  rw [List.range_eq_range']
  exact flatMap_range'_length f L n 0 (fun m hm => by simpa using hL m hm)

/-- One row of the monochrome decode output has `width * 4` bytes. -/
theorem monoRow_length (shapeIn : List Nat) (pitch width height j : Nat) :
    ((List.range width).flatMap fun i => monoPixel shapeIn pitch width height i j).length =
      width * 4 := by
  refine flatMap_range_length _ 4 width fun m _ => ?_
  rcases ha : monoAndBit shapeIn width m j <;>
    rcases hx : monoXorBit shapeIn pitch width height m j <;> simp [monoPixel, ha, hx]

/-- C1: for every monochrome shape and every coordinate within the (halved)
height and the width, the four decoded RGBA bytes at
`outIndex = (j*width + i)*4` are exactly the four-case table of the AND and
XOR bits: `(0,0)` fully transparent, `(0,1)` opaque white, `(1,0)` fully
transparent (not opaque black), `(1,1)` opaque black with alpha 255 (the
adaptive marker pixel). -/
theorem monoDecode_table (shapeIn : List Nat) (pitch width height i j : Nat)
    (hi : i < width) (hj : j < height) :
    ((monoDecode shapeIn pitch width height).drop ((j * width + i) * 4)).take 4 =
      (if monoAndBit shapeIn width i j then
        (if monoXorBit shapeIn pitch width height i j then [0, 0, 0, 255] else [0, 0, 0, 0])
      else
        (if monoXorBit shapeIn pitch width height i j then [255, 255, 255, 255]
         else [0, 0, 0, 0])) := by
  have hrow : ∀ m, m < height →
      (((List.range width).flatMap fun i => monoPixel shapeIn pitch width height i m).length) =
        width * 4 := fun m _ => monoRow_length shapeIn pitch width height m
  have hseg := flatMap_range_segment
    (fun j => (List.range width).flatMap fun i => monoPixel shapeIn pitch width height i j)
    (width * 4) height j hj hrow
  have hpix : ∀ m, m < width → (monoPixel shapeIn pitch width height m j).length = 4 := by
    intro m _
    rcases ha : monoAndBit shapeIn width m j <;>
      rcases hx : monoXorBit shapeIn pitch width height m j <;> simp [monoPixel, ha, hx]
  have hseg2 := flatMap_range_segment
    (fun i => monoPixel shapeIn pitch width height i j) 4 width i hi hpix
  have hidx : (j * width + i) * 4 = j * (width * 4) + i * 4 := by ring
  have hdrop : (monoDecode shapeIn pitch width height).drop ((j * width + i) * 4) =
      (((monoDecode shapeIn pitch width height).drop (j * (width * 4))).drop (i * 4)) := by
    rw [hidx, List.drop_drop]
  rw [hdrop]
  have hrowdrop : (monoDecode shapeIn pitch width height).drop (j * (width * 4)) =
      ((List.range width).flatMap fun i => monoPixel shapeIn pitch width height i j) ++
        ((List.range' (j + 1) (height - j - 1)).flatMap fun j' =>
          (List.range width).flatMap fun i => monoPixel shapeIn pitch width height i j') := by
    unfold monoDecode
    rw [List.range_eq_range']
    have := flatMap_range'_drop
      (fun j => (List.range width).flatMap fun i => monoPixel shapeIn pitch width height i j)
      (width * 4) height 0 j hj (fun m hm => by simpa using hrow m hm)
    simpa using this
  rw [hrowdrop]
  have hle : i * 4 ≤ ((List.range width).flatMap fun i =>
      monoPixel shapeIn pitch width height i j).length := by
    rw [monoRow_length]
    omega
  rw [List.drop_append_of_le_length hle]
  have hle2 : 4 ≤ (((List.range width).flatMap fun i =>
      monoPixel shapeIn pitch width height i j).drop (i * 4)).length := by
    rw [List.length_drop, monoRow_length]
    omega
  rw [List.take_append_of_le_length hle2, hseg2]
  rcases ha : monoAndBit shapeIn width i j <;>
    rcases hx : monoXorBit shapeIn pitch width height i j <;> simp [monoPixel, ha, hx]

/-- Closed instance of the monochrome decode table: a 2×1 shape whose AND map
byte is `0x80` and XOR map byte is `0x40`, read at pixel `(1,0)`. -/
theorem monoDecode_table_witness :
    ((monoDecode [0x80, 0x40] 1 2 1).drop ((0 * 2 + 1) * 4)).take 4 =
      (if monoAndBit [0x80, 0x40] 2 1 0 then
        (if monoXorBit [0x80, 0x40] 1 2 1 1 0 then [0, 0, 0, 255] else [0, 0, 0, 0])
      else
        (if monoXorBit [0x80, 0x40] 1 2 1 1 0 then [255, 255, 255, 255]
         else [0, 0, 0, 0])) :=
  monoDecode_table [0x80, 0x40] 1 2 1 1 0 (by decide) (by decide)

/-- Byte-level specification of the (spec-modelled) `swizzle.BGRA`: within
every complete 4-byte pixel, bytes 0 and 2 are exchanged and bytes 1 and 3 are
unchanged. -/
theorem swizzleBGRA_get (q : Nat) : ∀ l : List Nat, 4 * q + 3 < l.length →
    ((swizzleBGRA l)[4 * q]? = l[4 * q + 2]? ∧
     (swizzleBGRA l)[4 * q + 1]? = l[4 * q + 1]? ∧
     (swizzleBGRA l)[4 * q + 2]? = l[4 * q]? ∧
     (swizzleBGRA l)[4 * q + 3]? = l[4 * q + 3]?) := by
  induction q with
  | zero =>
    intro l h
    rcases l with _ | ⟨b, _ | ⟨g, _ | ⟨r, _ | ⟨a, rest⟩⟩⟩⟩
    · simp only [List.length_nil] at h; omega
    · simp only [List.length_cons, List.length_nil] at h; omega
    · simp only [List.length_cons, List.length_nil] at h; omega
    · simp only [List.length_cons, List.length_nil] at h; omega
    · simp [swizzleBGRA]
  | succ p ih =>
    intro l h
    rcases l with _ | ⟨b, _ | ⟨g, _ | ⟨r, _ | ⟨a, rest⟩⟩⟩⟩
    · simp only [List.length_nil] at h; omega
    · simp only [List.length_cons, List.length_nil] at h; omega
    · simp only [List.length_cons, List.length_nil] at h; omega
    · simp only [List.length_cons, List.length_nil] at h; omega
    · have hr : 4 * p + 3 < rest.length := by
        simp only [List.length_cons] at h
        omega
      have hih := ih rest hr
      have e0 : 4 * (p + 1) = 4 * p + 1 + 1 + 1 + 1 := by ring
      have e1 : 4 * (p + 1) + 1 = 4 * p + 1 + 1 + 1 + 1 + 1 := by ring
      have e2 : 4 * (p + 1) + 2 = 4 * p + 2 + 1 + 1 + 1 + 1 := by ring
      have e3 : 4 * (p + 1) + 3 = 4 * p + 3 + 1 + 1 + 1 + 1 := by ring
      refine ⟨?_, ?_, ?_, ?_⟩
      · rw [e2, e0]
        show (r :: g :: b :: a :: swizzleBGRA rest)[4 * p + 1 + 1 + 1 + 1]? = _
        simp only [List.getElem?_cons_succ]
        simpa using hih.1
      · rw [e1]
        show (r :: g :: b :: a :: swizzleBGRA rest)[4 * p + 1 + 1 + 1 + 1 + 1]? = _
        simp only [List.getElem?_cons_succ]
        simpa using hih.2.1
      · rw [e2, e0]
        show (r :: g :: b :: a :: swizzleBGRA rest)[4 * p + 2 + 1 + 1 + 1 + 1]? = _
        simp only [List.getElem?_cons_succ]
        simpa using hih.2.2.1
      · rw [e3]
        show (r :: g :: b :: a :: swizzleBGRA rest)[4 * p + 3 + 1 + 1 + 1 + 1]? = _
        simp only [List.getElem?_cons_succ]
        simpa using hih.2.2.2

/-- C6: for a mapped buffer holding `height` rows of `pitch` bytes with
`width*4 ≤ pitch`, the extraction step produces exactly `width*4` bytes per
row, row `r` of the destination being the first `width*4` bytes of source row
`r` (source offsets advance by `pitch`, destination offsets by `width*4`, so
padding is discarded — including the `pitch = width*4` case); afterwards the
swizzle exchanges bytes 0 and 2 of every 4-byte pixel exactly when the flag is
set, and does nothing otherwise. -/
theorem getImage_pixel_transfer (data : List Nat) (width height pitch : Nat)
    (hp : width * 4 ≤ pitch) (hd : height * pitch ≤ data.length) :
    (extractRows data width height pitch).length = height * (width * 4) ∧
    (∀ r, r < height →
      ((extractRows data width height pitch).drop (r * (width * 4))).take (width * 4) =
        (data.drop (r * pitch)).take (width * 4)) ∧
    getImagePixels data width height pitch false = extractRows data width height pitch ∧
    (∀ q, 4 * q + 3 < (extractRows data width height pitch).length →
      ((getImagePixels data width height pitch true)[4 * q]? =
         (extractRows data width height pitch)[4 * q + 2]? ∧
       (getImagePixels data width height pitch true)[4 * q + 1]? =
         (extractRows data width height pitch)[4 * q + 1]? ∧
       (getImagePixels data width height pitch true)[4 * q + 2]? =
         (extractRows data width height pitch)[4 * q]? ∧
       (getImagePixels data width height pitch true)[4 * q + 3]? =
         (extractRows data width height pitch)[4 * q + 3]?)) := by
  have hrowlen : ∀ m, m < height →
      ((data.drop (m * pitch)).take (width * 4)).length = width * 4 := by
    intro m hm
    have h1 : (m + 1) * pitch ≤ height * pitch := Nat.mul_le_mul_right pitch (by omega)
    have h2 : m * pitch + pitch = (m + 1) * pitch := by ring
    rw [List.length_take, List.length_drop]
    omega
  refine ⟨?_, ?_, rfl, ?_⟩
  · exact flatMap_range_length _ (width * 4) height hrowlen
  · intro r hr
    exact flatMap_range_segment _ (width * 4) height r hr hrowlen
  · intro q hq
    exact swizzleBGRA_get q (extractRows data width height pitch) hq

/-- Closed instance of the pixel-transfer theorem: two rows of pitch 6 with
content width 4 (one pixel per row, two padding bytes). -/
theorem getImage_pixel_transfer_witness :
    (extractRows [1, 2, 3, 4, 9, 9, 5, 6, 7, 8, 9, 9] 1 2 6).length = 2 * (1 * 4) ∧
    ((extractRows [1, 2, 3, 4, 9, 9, 5, 6, 7, 8, 9, 9] 1 2 6).drop (1 * (1 * 4))).take (1 * 4) =
      (([1, 2, 3, 4, 9, 9, 5, 6, 7, 8, 9, 9] : List Nat).drop (1 * 6)).take (1 * 4) ∧
    (getImagePixels [1, 2, 3, 4, 9, 9, 5, 6, 7, 8, 9, 9] 1 2 6 true)[4 * 0]? =
      (extractRows [1, 2, 3, 4, 9, 9, 5, 6, 7, 8, 9, 9] 1 2 6)[4 * 0 + 2]? := by
  have h := getImage_pixel_transfer [1, 2, 3, 4, 9, 9, 5, 6, 7, 8, 9, 9] 1 2 6
    (by decide) (by decide)
  exact ⟨h.1, h.2.1 1 (by decide), (h.2.2.2 0 (by decide)).1⟩

/-! Pixel read/write lemmas for the compositing proof. -/

/-- Setting one byte does not disturb reads at other offsets. -/
theorem getD_set_ne (l : List Nat) (i k v : Nat) (h : i ≠ k) :
    (l.set i v).getD k 0 = l.getD k 0 := by
  rw [List.getD_eq_getElem?_getD, List.getElem?_set_ne h, ← List.getD_eq_getElem?_getD]

/-- A 4-byte write does not disturb a 4-byte read at a different pixel offset
(offsets at distance at least 4). -/
theorem readPix_writePix_ne (l : List Nat) (o o' : Nat) (c : ColorRGBA)
    (h : o' + 4 ≤ o ∨ o + 4 ≤ o') :
    readPix (writePix l o c) o' = readPix l o' := by
  unfold readPix writePix
  have hall : ∀ k', o' ≤ k' → k' ≤ o' + 3 →
      ((((l.set o c.r).set (o + 1) c.g).set (o + 2) c.b).set (o + 3) c.a).getD k' 0 =
        l.getD k' 0 := by
    intro k' hk1 hk2
    rw [getD_set_ne _ _ _ _ (by omega), getD_set_ne _ _ _ _ (by omega),
        getD_set_ne _ _ _ _ (by omega), getD_set_ne _ _ _ _ (by omega)]
  rw [hall o' (by omega) (by omega), hall (o' + 1) (by omega) (by omega),
      hall (o' + 2) (by omega) (by omega), hall (o' + 3) (by omega) (by omega)]

/-- Reading back a 4-byte write at the same offset yields the written color,
provided the write landed inside the buffer. -/
theorem readPix_writePix_same (l : List Nat) (o : Nat) (c : ColorRGBA)
    (h : o + 3 < l.length) :
    readPix (writePix l o c) o = c := by
  unfold readPix writePix
  have hlen : ∀ v i, (l.set i v).length = l.length := fun v i => List.length_set l i v
  have g0 : ((((l.set o c.r).set (o+1) c.g).set (o+2) c.b).set (o+3) c.a).getD o 0 = c.r := by
    rw [getD_set_ne _ _ _ _ (by omega), getD_set_ne _ _ _ _ (by omega),
        getD_set_ne _ _ _ _ (by omega), List.getD_eq_getElem?_getD,
        List.getElem?_set_eq (by omega)]
    rfl
  have g1 : ((((l.set o c.r).set (o+1) c.g).set (o+2) c.b).set (o+3) c.a).getD (o+1) 0 = c.g := by
    rw [getD_set_ne _ _ _ _ (by omega), getD_set_ne _ _ _ _ (by omega),
        List.getD_eq_getElem?_getD, List.getElem?_set_eq (by simp [hlen]; omega)]
    rfl
  have g2 : ((((l.set o c.r).set (o+1) c.g).set (o+2) c.b).set (o+3) c.a).getD (o+2) 0 = c.b := by
    rw [getD_set_ne _ _ _ _ (by omega), List.getD_eq_getElem?_getD,
        List.getElem?_set_eq (by simp [hlen]; omega)]
    rfl
  have g3 : ((((l.set o c.r).set (o+1) c.g).set (o+2) c.b).set (o+3) c.a).getD (o+3) 0 = c.a := by
    rw [List.getD_eq_getElem?_getD, List.getElem?_set_eq (by simp [hlen]; omega)]
    rfl
  rw [g0, g1, g2, g3]

/-- `Set` preserves the image dimensions and buffer length. -/
theorem setPix_dims (img : RGBAImage) (x y : Int) (c : ColorRGBA) :
    (img.setPix x y c).w = img.w ∧ (img.setPix x y c).h = img.h ∧
    (img.setPix x y c).pix.length = img.pix.length := by
  unfold RGBAImage.setPix writePix
  split_ifs <;> simp

/-- Distinct in-bounds pixel coordinates occupy disjoint 4-byte ranges. -/
theorem pixOffset_ne (w : Nat) (x y x' y' : Int)
    (hx : 0 ≤ x) (hxw : x < (w : Int)) (hx' : 0 ≤ x') (hxw' : x' < (w : Int))
    (hy : 0 ≤ y) (hy' : 0 ≤ y')
    (hne : ¬ (x = x' ∧ y = y')) :
    pixOffset w x y + 4 ≤ pixOffset w x' y' ∨ pixOffset w x' y' + 4 ≤ pixOffset w x y := by
  unfold pixOffset
  have hxn : x.toNat < w := by omega
  have hxn' : x'.toNat < w := by omega
  have hcell : y.toNat * w + x.toNat ≠ y'.toNat * w + x'.toNat := by
    intro he
    apply hne
    have hyy : y.toNat = y'.toNat := by
      rcases Nat.lt_trichotomy y.toNat y'.toNat with hlt | heq | hgt
      · exfalso
        have s1 : (y.toNat + 1) * w ≤ y'.toNat * w := Nat.mul_le_mul_right w hlt
        have s2 : y.toNat * w + w = (y.toNat + 1) * w := by ring
        omega
      · exact heq
      · exfalso
        have s1 : (y'.toNat + 1) * w ≤ y.toNat * w := Nat.mul_le_mul_right w hgt
        have s2 : y'.toNat * w + w = (y'.toNat + 1) * w := by ring
        omega
    have hxx : x.toNat = x'.toNat := by
      rw [hyy] at he
      omega
    constructor <;> omega
  omega

/-- Writes at other coordinates do not change a pixel read. -/
theorem pixAt_setPix_ne (img : RGBAImage) (x y x' y' : Int) (c : ColorRGBA)
    (hne : ¬ (x = x' ∧ y = y')) :
    (img.setPix x y c).pixAt x' y' = img.pixAt x' y' := by
  unfold RGBAImage.setPix
  split_ifs with hb
  · unfold RGBAImage.pixAt
    simp only
    split_ifs with hb'
    · exact readPix_writePix_ne _ _ _ _
        (Or.symm (pixOffset_ne img.w x y x' y' hb.1 hb.2.1 hb'.1 hb'.2.1 hb.2.2.1 hb'.2.2.1 hne))
    · rfl
  · rfl

/-- An in-bounds write is read back exactly (on a well-formed buffer). -/
theorem pixAt_setPix_same (img : RGBAImage) (x y : Int) (c : ColorRGBA)
    (hwf : img.pix.length = img.w * img.h * 4)
    (hb : 0 ≤ x ∧ x < (img.w : Int) ∧ 0 ≤ y ∧ y < (img.h : Int)) :
    (img.setPix x y c).pixAt x y = c := by
  unfold RGBAImage.setPix
  rw [if_pos hb]
  unfold RGBAImage.pixAt
  simp only
  rw [if_pos hb]
  apply readPix_writePix_same
  unfold pixOffset
  have hxw : x.toNat < img.w := by omega
  have hyh : y.toNat < img.h := by omega
  have h1 : (y.toNat + 1) * img.w ≤ img.h * img.w := Nat.mul_le_mul_right img.w (by omega)
  have h2 : y.toNat * img.w + img.w = (y.toNat + 1) * img.w := by ring
  have h3 : img.w * img.h * 4 = img.h * img.w * 4 := by ring
  have h4 : (y.toNat * img.w + x.toNat + 1) * 4 ≤ (y.toNat + 1) * img.w * 4 :=
    Nat.mul_le_mul_right 4 (by omega)
  omega

/-- Folding pixel writes preserves the image dimensions and buffer length. -/
theorem foldl_setPix_dims (ws : List (Int × Int × ColorRGBA)) :
    ∀ img : RGBAImage,
      (ws.foldl (fun acc w => acc.setPix w.1 w.2.1 w.2.2) img).w = img.w ∧
      (ws.foldl (fun acc w => acc.setPix w.1 w.2.1 w.2.2) img).h = img.h ∧
      (ws.foldl (fun acc w => acc.setPix w.1 w.2.1 w.2.2) img).pix.length = img.pix.length := by
  induction ws with
  | nil => intro img; exact ⟨rfl, rfl, rfl⟩
  | cons w rest ih =>
    intro img
    have h1 := ih (img.setPix w.1 w.2.1 w.2.2)
    have h2 := setPix_dims img w.1 w.2.1 w.2.2
    exact ⟨h1.1.trans h2.1, h1.2.1.trans h2.2.1, h1.2.2.trans h2.2.2⟩

/-- Folding writes, none of which targets `(x,y)`, leaves the pixel at `(x,y)`
unchanged. -/
theorem foldl_setPix_no_target (ws : List (Int × Int × ColorRGBA)) :
    ∀ (img : RGBAImage) (x y : Int),
      (∀ w ∈ ws, ¬ (w.1 = x ∧ w.2.1 = y)) →
      (ws.foldl (fun acc w => acc.setPix w.1 w.2.1 w.2.2) img).pixAt x y = img.pixAt x y := by
  induction ws with
  | nil => intro img x y _; rfl
  | cons w rest ih =>
    intro img x y h
    show (rest.foldl _ (img.setPix w.1 w.2.1 w.2.2)).pixAt x y = _
    rw [ih _ x y fun w' hw' => h w' (List.mem_cons_of_mem w hw')]
    exact pixAt_setPix_ne img w.1 w.2.1 x y w.2.2 (h w (List.mem_cons_self w rest))

/-- Folding writes where exactly one (somewhere in the middle) targets `(x,y)`
ends with that write's color at `(x,y)`. -/
theorem foldl_setPix_target (pre : List (Int × Int × ColorRGBA))
    (w0 : Int × Int × ColorRGBA) (post : List (Int × Int × ColorRGBA))
    (img : RGBAImage) (hwf : img.pix.length = img.w * img.h * 4)
    (hb : 0 ≤ w0.1 ∧ w0.1 < (img.w : Int) ∧ 0 ≤ w0.2.1 ∧ w0.2.1 < (img.h : Int))
    (hpost : ∀ w ∈ post, ¬ (w.1 = w0.1 ∧ w.2.1 = w0.2.1)) :
    ((pre ++ w0 :: post).foldl (fun acc w => acc.setPix w.1 w.2.1 w.2.2) img).pixAt
        w0.1 w0.2.1 = w0.2.2 := by
  rw [List.foldl_append]
  show (post.foldl _
      ((pre.foldl (fun acc w => acc.setPix w.1 w.2.1 w.2.2) img).setPix w0.1 w0.2.1 w0.2.2)).pixAt
      w0.1 w0.2.1 = _
  rw [foldl_setPix_no_target post _ w0.1 w0.2.1 hpost]
  have hd := foldl_setPix_dims pre img
  apply pixAt_setPix_same
  · rw [hd.1, hd.2.1, hd.2.2, hwf]
  · rw [hd.1, hd.2.1]
    exact hb

/-- The coordinate pairs visited by `drawPointer` are pairwise distinct. -/
theorem drawPairs_nodup (p : PointerDrawState) : (drawPairs p).Nodup := by
  unfold drawPairs
  rw [List.nodup_flatMap]
  constructor
  · intro j _
    exact (List.nodup_range _).map fun a b h => (Prod.mk.injEq _ _ _ _).mp h |>.1
  · have hr := List.nodup_range p.size.y.toNat
    refine List.Pairwise.imp ?_ hr
    intro j1 j2 hne x hx1 hx2
    rcases List.mem_map.mp hx1 with ⟨i1, _, rfl⟩
    rcases List.mem_map.mp hx2 with ⟨i2, _, he⟩
    exact hne ((Prod.mk.injEq _ _ _ _).mp he.symm).2

/-- Membership in the visited coordinate pairs. -/
theorem mem_drawPairs (p : PointerDrawState) (i j : Nat) :
    (i, j) ∈ drawPairs p ↔ i < p.size.x.toNat ∧ j < p.size.y.toNat := by
  unfold drawPairs
  simp [List.mem_flatMap, List.mem_map, List.mem_range, eq_comm]
  aesop

/-- Every write emitted for shape coordinate `(i,j)` targets exactly
`cursorPosition + (i,j)`. -/
theorem drawPointerWrite_target (p : PointerDrawState) (L : Bool) (i j : Nat)
    (w : Int × Int × ColorRGBA) (hw : w ∈ (drawPointerWrite p L i j).toList) :
    w.1 = p.pos.x + i ∧ w.2.1 = p.pos.y + j := by
  unfold drawPointerWrite at hw
  split_ifs at hw <;> simp at hw
  all_goals (rw [← hw.2]; exact ⟨rfl, rfl⟩)

/-- A shape pixel is skipped exactly when its alpha is zero. -/
theorem drawPointerWrite_none_iff (p : PointerDrawState) (L : Bool) (i j : Nat) :
    drawPointerWrite p L i j = none ↔ (p.shape.pixAt i j).a = 0 := by
  unfold drawPointerWrite
  split_ifs with h0 <;> simp [h0]

/-- The write emitted for a non-skipped shape pixel. -/
theorem drawPointerWrite_some (p : PointerDrawState) (L : Bool) (i j : Nat)
    (h0 : ¬ (p.shape.pixAt i j).a = 0) :
    drawPointerWrite p L i j = some (p.pos.x + i, p.pos.y + j,
      if (p.shape.pixAt i j).r = 0 ∧ (p.shape.pixAt i j).g = 0 ∧
         (p.shape.pixAt i j).b = 0 ∧ (p.shape.pixAt i j).a = 255 then
        (if L then (⟨0, 0, 0, 255⟩ : ColorRGBA) else ⟨255, 255, 255, 255⟩)
      else p.shape.pixAt i j) := by
  unfold drawPointerWrite
  rw [if_neg h0]

/-- Pointwise behaviour of `drawPointer`: for a shape coordinate `(i,j)` whose
target lies inside the image, the final pixel at `cursorPosition + (i,j)` is
the original image pixel when the decoded pixel is skipped (`alpha = 0`), the
background-adapted black/white when the decoded pixel is the opaque pure-black
adaptive marker, and the decoded pixel verbatim otherwise. -/
theorem drawPointer_pixel (p : PointerDrawState) (img : RGBAImage)
    (hwf : img.pix.length = img.w * img.h * 4)
    (i j : Nat) (hi : i < p.size.x.toNat) (hj : j < p.size.y.toNat)
    (hb : 0 ≤ p.pos.x + i ∧ p.pos.x + i < (img.w : Int) ∧
          0 ≤ p.pos.y + j ∧ p.pos.y + j < (img.h : Int)) :
    (drawPointer p img).pixAt (p.pos.x + i) (p.pos.y + j) =
      (if (p.shape.pixAt i j).a = 0 then img.pixAt (p.pos.x + i) (p.pos.y + j)
       else if (p.shape.pixAt i j).r = 0 ∧ (p.shape.pixAt i j).g = 0 ∧
               (p.shape.pixAt i j).b = 0 ∧ (p.shape.pixAt i j).a = 255 then
         (if analyzeBackgroundBrightness p img then (⟨0, 0, 0, 255⟩ : ColorRGBA)
          else ⟨255, 255, 255, 255⟩)
       else p.shape.pixAt i j) := by
  have hmem : (i, j) ∈ drawPairs p := (mem_drawPairs p i j).mpr ⟨hi, hj⟩
  obtain ⟨s, t, hst⟩ := List.mem_iff_append.mp hmem
  have hnd := drawPairs_nodup p
  rw [hst] at hnd
  have hnots : (i, j) ∉ s := by
    intro hmem'
    exact (List.disjoint_of_nodup_append hnd) hmem' (List.mem_cons_self _ _)
  have hnott : (i, j) ∉ t := by
    have := (List.nodup_append.mp hnd).2.1
    exact (List.nodup_cons.mp this).1
  have htgt : ∀ (q : Nat × Nat), q ∈ drawPairs p → q ≠ (i, j) →
      ∀ w ∈ (drawPointerWrite p (analyzeBackgroundBrightness p img) q.1 q.2).toList,
        ¬ (w.1 = p.pos.x + i ∧ w.2.1 = p.pos.y + j) := by
    intro q _ hqne w hw hcon
    have h1 := drawPointerWrite_target p _ q.1 q.2 w hw
    apply hqne
    have e1 : (q.1 : Int) = i := by
      have := h1.1.symm.trans hcon.1
      omega
    have e2 : (q.2 : Int) = j := by
      have := h1.2.symm.trans hcon.2
      omega
    have : q.1 = i := by omega
    have : q.2 = j := by omega
    rcases q
    simp_all
  have hpost : ∀ w ∈ t.flatMap fun q =>
      (drawPointerWrite p (analyzeBackgroundBrightness p img) q.1 q.2).toList,
      ¬ (w.1 = p.pos.x + i ∧ w.2.1 = p.pos.y + j) := by
    intro w hw
    rcases List.mem_flatMap.mp hw with ⟨q, hqt, hqw⟩
    exact htgt q
      (hst ▸ List.mem_append_right _ (List.mem_cons_of_mem _ hqt))
      (fun he => hnott (he ▸ hqt)) w hqw
  have hpre : ∀ w ∈ s.flatMap fun q =>
      (drawPointerWrite p (analyzeBackgroundBrightness p img) q.1 q.2).toList,
      ¬ (w.1 = p.pos.x + i ∧ w.2.1 = p.pos.y + j) := by
    intro w hw
    rcases List.mem_flatMap.mp hw with ⟨q, hqs, hqw⟩
    exact htgt q (hst ▸ List.mem_append_left _ hqs)
      (fun he => hnots (he ▸ hqs)) w hqw
  unfold drawPointer
  dsimp only
  rw [hst, List.flatMap_append]
  show ((s.flatMap _ ++
      ((drawPointerWrite p (analyzeBackgroundBrightness p img) i j).toList ++
        t.flatMap _)).foldl _ img).pixAt _ _ = _
  by_cases h0 : (p.shape.pixAt i j).a = 0
  · -- skipped pixel: no write anywhere targets this coordinate
    rw [(drawPointerWrite_none_iff p (analyzeBackgroundBrightness p img) i j).mpr h0]
    show ((s.flatMap _ ++ t.flatMap _).foldl _ img).pixAt _ _ = _
    rw [foldl_setPix_no_target]
    · rw [if_pos h0]
    · intro w hw
      rcases List.mem_append.mp hw with hws | hwt
      · exact hpre w hws
      · exact hpost w hwt
  · -- written pixel
    rw [drawPointerWrite_some p (analyzeBackgroundBrightness p img) i j h0]
    show ((s.flatMap _ ++
        (p.pos.x + (i : Int), p.pos.y + (j : Int),
          if (p.shape.pixAt i j).r = 0 ∧ (p.shape.pixAt i j).g = 0 ∧
             (p.shape.pixAt i j).b = 0 ∧ (p.shape.pixAt i j).a = 255 then
            (if analyzeBackgroundBrightness p img then (⟨0, 0, 0, 255⟩ : ColorRGBA)
             else ⟨255, 255, 255, 255⟩)
          else p.shape.pixAt i j) :: t.flatMap _).foldl _ img).pixAt _ _ = _
    rw [foldl_setPix_target _ _ _ _ hwf hb hpost]
    rw [if_neg h0]

/-- The background classification in closed form: light exactly when some
pixel was sampled and the truncated lumas sum to at least `81 · count`
(equivalently, the integer average exceeds 80; a sum in `[80·count, 81·count)`
classifies dark). -/
theorem analyzeBackgroundBrightness_iff (p : PointerDrawState) (img : RGBAImage) :
    analyzeBackgroundBrightness p img = true ↔
      (ringPoints p img ≠ [] ∧
       81 * (ringPoints p img).length ≤ ringLumaTotal p img) := by
  unfold analyzeBackgroundBrightness
  by_cases hc : (ringPoints p img).length = 0
  · have : ringPoints p img = [] := List.length_eq_zero.mp hc
    simp [hc, this]
  · have hne : ringPoints p img ≠ [] := fun he => hc (by rw [he]; rfl)
    rw [if_neg hc]
    simp only [decide_eq_true_eq]
    constructor
    · intro h
      refine ⟨hne, ?_⟩
      have h81 : 81 ≤ ringLumaTotal p img / (ringPoints p img).length := by omega
      have := (Nat.le_div_iff_mul_le (Nat.pos_of_ne_zero hc)).mp h81
      omega
    · rintro ⟨-, hle⟩
      have h81 : 81 ≤ ringLumaTotal p img / (ringPoints p img).length :=
        (Nat.le_div_iff_mul_le (Nat.pos_of_ne_zero hc)).mpr (by omega)
      omega

/-- C8 amended: the background is classified as light exactly when the sampled
ring is non-empty and the integer average of the per-pixel float64-truncated
lumas strictly exceeds 80 (so a real mean in `(80, 81)` — or even exactly 81,
via float truncation as for uniform gray 81 — classifies dark); then for every
decoded cursor pixel within bounds: alpha-0 pixels are skipped entirely,
opaque pure-black pixels are drawn black on a light background and white on a
dark one, and every other non-transparent pixel is written verbatim at
`cursorPosition + (i,j)`. -/
theorem cursor_adaptive_compositing (p : PointerDrawState) (img : RGBAImage)
    (hwf : img.pix.length = img.w * img.h * 4)
    (i j : Nat) (hi : i < p.size.x.toNat) (hj : j < p.size.y.toNat)
    (hb : 0 ≤ p.pos.x + i ∧ p.pos.x + i < (img.w : Int) ∧
          0 ≤ p.pos.y + j ∧ p.pos.y + j < (img.h : Int)) :
    (analyzeBackgroundBrightness p img = true ↔
      (ringPoints p img ≠ [] ∧
       81 * (ringPoints p img).length ≤ ringLumaTotal p img)) ∧
    ((p.shape.pixAt i j).a = 0 →
      (drawPointer p img).pixAt (p.pos.x + i) (p.pos.y + j) =
        img.pixAt (p.pos.x + i) (p.pos.y + j)) ∧
    ((p.shape.pixAt i j).r = 0 ∧ (p.shape.pixAt i j).g = 0 ∧
     (p.shape.pixAt i j).b = 0 ∧ (p.shape.pixAt i j).a = 255 →
      (drawPointer p img).pixAt (p.pos.x + i) (p.pos.y + j) =
        (if analyzeBackgroundBrightness p img then (⟨0, 0, 0, 255⟩ : ColorRGBA)
         else ⟨255, 255, 255, 255⟩)) ∧
    ((p.shape.pixAt i j).a ≠ 0 →
      ¬ ((p.shape.pixAt i j).r = 0 ∧ (p.shape.pixAt i j).g = 0 ∧
         (p.shape.pixAt i j).b = 0 ∧ (p.shape.pixAt i j).a = 255) →
      (drawPointer p img).pixAt (p.pos.x + i) (p.pos.y + j) = p.shape.pixAt i j) := by
  have hdp := drawPointer_pixel p img hwf i j hi hj hb
  refine ⟨analyzeBackgroundBrightness_iff p img, ?_, ?_, ?_⟩
  · intro ha
    rw [hdp, if_pos ha]
  · intro hadap
    rw [hdp, if_neg (by simp [hadap.2.2.2]), if_pos hadap]
  · intro ha hnadap
    rw [hdp, if_neg ha, if_neg hnadap]

/-- A 3×1 image whose pixels are all the uniform gray `(81,81,81)`. -/
def gray81Image : RGBAImage :=
  ⟨3, 1, [81, 81, 81, 255, 81, 81, 81, 255, 81, 81, 81, 255]⟩

/-- A 1×1 cursor at the origin whose only decoded pixel is the opaque
pure-black adaptive marker. -/
def adaptiveDot : PointerDrawState := ⟨⟨0, 0⟩, ⟨1, 1⟩, ⟨1, 1, [0, 0, 0, 255]⟩⟩

/-- A 3×1 dark image (uniform gray 10). -/
def gray10Image : RGBAImage :=
  ⟨3, 1, [10, 10, 10, 255, 10, 10, 10, 255, 10, 10, 10, 255]⟩

/-- Closed instance of the compositing theorem: on a dark background the
adaptive marker pixel is drawn white at the cursor position. -/
theorem cursor_adaptive_compositing_witness :
    (analyzeBackgroundBrightness adaptiveDot gray10Image = true ↔
      (ringPoints adaptiveDot gray10Image ≠ [] ∧
       81 * (ringPoints adaptiveDot gray10Image).length ≤
         ringLumaTotal adaptiveDot gray10Image)) ∧
    ((adaptiveDot.shape.pixAt 0 0).a = 0 →
      (drawPointer adaptiveDot gray10Image).pixAt (adaptiveDot.pos.x + 0) (adaptiveDot.pos.y + 0) =
        gray10Image.pixAt (adaptiveDot.pos.x + 0) (adaptiveDot.pos.y + 0)) ∧
    ((adaptiveDot.shape.pixAt 0 0).r = 0 ∧ (adaptiveDot.shape.pixAt 0 0).g = 0 ∧
     (adaptiveDot.shape.pixAt 0 0).b = 0 ∧ (adaptiveDot.shape.pixAt 0 0).a = 255 →
      (drawPointer adaptiveDot gray10Image).pixAt (adaptiveDot.pos.x + 0) (adaptiveDot.pos.y + 0) =
        (if analyzeBackgroundBrightness adaptiveDot gray10Image then (⟨0, 0, 0, 255⟩ : ColorRGBA)
         else ⟨255, 255, 255, 255⟩)) ∧
    ((adaptiveDot.shape.pixAt 0 0).a ≠ 0 →
      ¬ ((adaptiveDot.shape.pixAt 0 0).r = 0 ∧ (adaptiveDot.shape.pixAt 0 0).g = 0 ∧
         (adaptiveDot.shape.pixAt 0 0).b = 0 ∧ (adaptiveDot.shape.pixAt 0 0).a = 255) →
      (drawPointer adaptiveDot gray10Image).pixAt (adaptiveDot.pos.x + 0) (adaptiveDot.pos.y + 0) =
        adaptiveDot.shape.pixAt 0 0) :=
  cursor_adaptive_compositing adaptiveDot gray10Image rfl 0 0 (by decide) (by decide)
    ⟨by decide, by decide, by decide, by decide⟩

/-- C8 fails as stated: on a uniform gray-81 background the exact mean BT.601
luma of the sampled ring is 81, strictly above the threshold 80, yet the code
classifies the background as dark (float64 truncation computes the per-pixel
luma of `(81,81,81)` as 80) and renders the adaptive marker pixel white, not
black. -/
theorem brightness_threshold_float_cex :
    meanLumaSpec adaptiveDot gray81Image = 81 ∧
    (80 : ℚ) < meanLumaSpec adaptiveDot gray81Image ∧
    analyzeBackgroundBrightness adaptiveDot gray81Image = false ∧
    (drawPointer adaptiveDot gray81Image).pixAt 0 0 = ⟨255, 255, 255, 255⟩ := by
  have hring : ringPoints adaptiveDot gray81Image = [(1, 0), (2, 0)] := by decide
  have hp1 : gray81Image.pixAt 1 0 = ⟨81, 81, 81, 255⟩ := by decide
  have hp2 : gray81Image.pixAt 2 0 = ⟨81, 81, 81, 255⟩ := by decide
  have hmean : meanLumaSpec adaptiveDot gray81Image = 81 := by
    unfold meanLumaSpec
    rw [hring]
    simp only [List.map_cons, List.map_nil, hp1, hp2]
    norm_num
  refine ⟨hmean, by rw [hmean]; norm_num, by decide, by decide⟩

end GoD3D

